import Mathlib

/-!
Verification of the audio-visual dataset utilities in
`nemo/collections/multimodal/speech_cv/data/audio_and_video_to_text.py`.

The development shallowly embeds the pure parts of that module:
tensors are lists (a video tensor is a list of frames of an abstract
frame type), Python integer arithmetic is `Int` with floor division
(`Int.fdiv` / `Int.fmod`, matching Python `//` and `%`), and fallible
code returns `Except String`.
-/

namespace AVSpeech

/-- Shallow embedding of `_AudioVideoTextDataset.align_audio_and_video`
(the tarred dataset carries a byte-for-byte identical copy).  The audio
signal is a list of samples of type `α`, the video signal a list of
frames of type `β`; `zA` and `zB` are the zero sample and the zero frame
used by `new_zeros`.  Arithmetic follows the Python source: `padding =
Ta // (160 * 2 * 2) + 1 - Tv`, and the shorter modality is padded with
`padding // 2` zeros on the left and `padding // 2 + padding % 2` zeros
on the right. -/
def alignAudioAndVideo {α β : Type} (zA : α) (zB : β)
    (input_audio_signal : List α) (input_video_signal : List β) :
    List α × List β :=
  let Tv : Int := input_video_signal.length
  let Ta : Int := input_audio_signal.length
  let padding : Int := Ta.fdiv (160 * 2 * 2) + 1 - Tv
  if 0 ≤ padding then
    let padding_left := padding.fdiv 2
    let padding_right := padding.fdiv 2 + padding.fmod 2
    (input_audio_signal,
      List.replicate padding_left.toNat zB ++ input_video_signal ++
        List.replicate padding_right.toNat zB)
  else
    let padding2 : Int := (Tv - 1) * (2 * 2 * 160) - Ta
    let padding_left := padding2.fdiv 2
    let padding_right := padding2.fdiv 2 + padding2.fmod 2
    (List.replicate padding_left.toNat zA ++ input_audio_signal ++
       List.replicate padding_right.toNat zA,
     input_video_signal)

/-- The left half of a symmetric pad of total size `p`, as computed by
`padding_left = padding // 2` in the source. -/
def padLeft (p : Nat) : Nat := p / 2

/-- The right half of a symmetric pad of total size `p`, as computed by
`padding_right = padding // 2 + padding % 2` in the source. -/
def padRight (p : Nat) : Nat := p / 2 + p % 2

lemma fdiv_six_forty (a : Int) : a.fdiv (160 * 2 * 2) = a / (160 * 2 * 2) :=
  Int.fdiv_eq_ediv _ (by norm_num)

lemma fdiv_two (a : Int) : a.fdiv 2 = a / 2 :=
  Int.fdiv_eq_ediv _ (by norm_num)

lemma fmod_two (a : Int) : a.fmod 2 = a % 2 :=
  Int.fmod_eq_emod _ (by norm_num)

/-- C1: for every audio signal and every video signal with at least one
frame, the output lengths `(Ta', Tv')` of `align_audio_and_video`
satisfy `Tv' = Ta' / 640 + 1`, in both the video-padding and the
audio-padding branch. -/
theorem align_video_count_eq_div_add_one {α β : Type} (zA : α) (zB : β)
    (audio : List α) (video : List β) (hv : 1 ≤ video.length) :
    ((alignAudioAndVideo zA zB audio video).2).length =
      ((alignAudioAndVideo zA zB audio video).1).length / 640 + 1 := by
  simp only [alignAudioAndVideo, fdiv_six_forty, fdiv_two, fmod_two]
  split_ifs with h <;>
    simp only [List.length_append, List.length_replicate] <;> omega

/-- Closed witness for `align_video_count_eq_div_add_one`. -/
theorem align_video_count_eq_div_add_one_witness :
    1 ≤ ([5] : List Int).length ∧
      ((alignAudioAndVideo (0 : Int) (0 : Int) [] [5]).2).length =
        ((alignAudioAndVideo (0 : Int) (0 : Int) [] [5]).1).length / 640 + 1 :=
  ⟨by decide, align_video_count_eq_div_add_one 0 0 [] [5] (by decide)⟩

/-- C2 (counterexample): at audio length `Ta = 0` and video frame count
`Tv = 1` the video-padding branch is taken (`Ta // 640 + 1 - Tv >= 0`),
yet the resulting video frame count is `1` while `ceil(Ta/640) = 0`. -/
theorem align_video_count_ceil_counterexample :
    0 ≤ Int.fdiv 0 (160 * 2 * 2) + 1 - 1 ∧
      ¬ ((alignAudioAndVideo (0 : Int) (0 : Int) ([] : List Int) [5]).2).length =
          (([] : List Int).length + 639) / 640 := by
  constructor
  · decide
  · decide

/-- C2 (amended): whenever the video-padding branch is taken
(`Tv ≤ Ta / 640 + 1`), the resulting video frame count equals
`Ta / 640 + 1` (floor division plus one, which is `ceil(Ta/640)`
exactly when `640` does not divide `Ta`). -/
theorem align_video_branch_count {α β : Type} (zA : α) (zB : β)
    (audio : List α) (video : List β)
    (h : video.length ≤ audio.length / 640 + 1) :
    ((alignAudioAndVideo zA zB audio video).2).length =
      audio.length / 640 + 1 := by
  simp only [alignAudioAndVideo, fdiv_six_forty, fdiv_two, fmod_two]
  split_ifs with hb <;>
    simp only [List.length_append, List.length_replicate] <;> omega

/-- Closed witness for `align_video_branch_count`. -/
theorem align_video_branch_count_witness :
    ([5] : List Int).length ≤ ([1, 2, 3] : List Int).length / 640 + 1 ∧
      ((alignAudioAndVideo (0 : Int) (0 : Int) ([1, 2, 3] : List Int) [5]).2).length =
        ([1, 2, 3] : List Int).length / 640 + 1 :=
  ⟨by decide, align_video_branch_count 0 0 [1, 2, 3] [5] (by decide)⟩

/-- C3: in each branch of `align_audio_and_video`, the padded modality
receives `padLeft p = p / 2` zeros on the left and
`padRight p = p / 2 + p % 2` zeros on the right, where `p` is the
branch's total pad count; the halves sum to `p`, differ by at most one,
and differ exactly when `p` is odd. -/
theorem align_pad_split {α β : Type} (zA : α) (zB : β)
    (audio : List α) (video : List β) :
    (video.length ≤ audio.length / 640 + 1 →
      (alignAudioAndVideo zA zB audio video).2 =
        List.replicate (padLeft (audio.length / 640 + 1 - video.length)) zB ++
          video ++
          List.replicate (padRight (audio.length / 640 + 1 - video.length)) zB) ∧
    (audio.length / 640 + 1 < video.length →
      (alignAudioAndVideo zA zB audio video).1 =
        List.replicate (padLeft ((video.length - 1) * 640 - audio.length)) zA ++
          audio ++
          List.replicate (padRight ((video.length - 1) * 640 - audio.length)) zA) ∧
    (∀ p : Nat, padLeft p + padRight p = p ∧
      padRight p - padLeft p ≤ 1 ∧
      (padRight p - padLeft p = 1 ↔ p % 2 = 1)) := by
  refine ⟨?_, ?_, ?_⟩
  · intro h
    simp only [alignAudioAndVideo, fdiv_six_forty, fdiv_two, fmod_two]
    rw [if_pos (by push_cast; omega)]
    rw [show ((((audio.length : Int) / (160 * 2 * 2) + 1 - video.length) / 2).toNat)
          = padLeft (audio.length / 640 + 1 - video.length) from by
        unfold padLeft; omega,
      show ((((audio.length : Int) / (160 * 2 * 2) + 1 - video.length) / 2 +
              ((audio.length : Int) / (160 * 2 * 2) + 1 - video.length) % 2).toNat)
          = padRight (audio.length / 640 + 1 - video.length) from by
        unfold padRight; omega]
  · intro h
    simp only [alignAudioAndVideo, fdiv_six_forty, fdiv_two, fmod_two]
    rw [if_neg (by push_cast; omega)]
    rw [show (((((video.length : Int) - 1) * (2 * 2 * 160) - audio.length) / 2).toNat)
          = padLeft ((video.length - 1) * 640 - audio.length) from by
        unfold padLeft; omega,
      show (((((video.length : Int) - 1) * (2 * 2 * 160) - audio.length) / 2 +
              (((video.length : Int) - 1) * (2 * 2 * 160) - audio.length) % 2).toNat)
          = padRight ((video.length - 1) * 640 - audio.length) from by
        unfold padRight; omega]
  · intro p
    unfold padLeft padRight
    refine ⟨by omega, by omega, by omega⟩

/-- Closed witness for `align_pad_split`: the video-padding branch at
`Ta = 0, Tv = 1`, the audio-padding branch at `Ta = 0, Tv = 2`, and the
arithmetic facts at `p = 3`. -/
theorem align_pad_split_witness :
    ((alignAudioAndVideo (0 : Int) (0 : Int) ([] : List Int) [5]).2 =
        List.replicate (padLeft 0) (0 : Int) ++ [5] ++ List.replicate (padRight 0) 0) ∧
    ((alignAudioAndVideo (0 : Int) (0 : Int) ([] : List Int) [5, 6]).1 =
        List.replicate (padLeft 640) (0 : Int) ++ [] ++ List.replicate (padRight 640) 0) ∧
    (padLeft 3 + padRight 3 = 3 ∧ padRight 3 - padLeft 3 ≤ 1 ∧
      (padRight 3 - padLeft 3 = 1 ↔ 3 % 2 = 1)) :=
  ⟨(align_pad_split 0 0 ([] : List Int) [5]).1 (by decide),
   (align_pad_split 0 0 ([] : List Int) [5, 6]).2.1 (by decide),
   (align_pad_split 0 0 ([] : List Int) [5, 6]).2.2 3⟩

/-- C4: `align_audio_and_video` modifies at most one modality.  If
`Ta / 640 + 1 ≥ Tv` the returned audio signal is the input audio signal
and the video signal is zero-padded; otherwise the returned video
signal is the input video signal and the audio signal is zero-padded. -/
theorem align_modifies_one_modality {α β : Type} (zA : α) (zB : β)
    (audio : List α) (video : List β) :
    (video.length ≤ audio.length / 640 + 1 →
      (alignAudioAndVideo zA zB audio video).1 = audio ∧
      ∃ l r, (alignAudioAndVideo zA zB audio video).2 =
        List.replicate l zB ++ video ++ List.replicate r zB) ∧
    (audio.length / 640 + 1 < video.length →
      (alignAudioAndVideo zA zB audio video).2 = video ∧
      ∃ l r, (alignAudioAndVideo zA zB audio video).1 =
        List.replicate l zA ++ audio ++ List.replicate r zA) := by
  constructor
  · intro h
    simp only [alignAudioAndVideo, fdiv_six_forty, fdiv_two, fmod_two]
    rw [if_pos (by push_cast; omega)]
    exact ⟨rfl, _, _, rfl⟩
  · intro h
    simp only [alignAudioAndVideo, fdiv_six_forty, fdiv_two, fmod_two]
    rw [if_neg (by push_cast; omega)]
    exact ⟨rfl, _, _, rfl⟩

/-- Closed witness for `align_modifies_one_modality`, covering both
branches. -/
theorem align_modifies_one_modality_witness :
    ((alignAudioAndVideo (0 : Int) (0 : Int) ([] : List Int) [5]).1 = [] ∧
      ∃ l r, (alignAudioAndVideo (0 : Int) (0 : Int) ([] : List Int) [5]).2 =
        List.replicate l (0 : Int) ++ [5] ++ List.replicate r 0) ∧
    ((alignAudioAndVideo (0 : Int) (0 : Int) ([] : List Int) [5, 6]).2 = [5, 6] ∧
      ∃ l r, (alignAudioAndVideo (0 : Int) (0 : Int) ([] : List Int) [5, 6]).1 =
        List.replicate l (0 : Int) ++ [] ++ List.replicate r 0) :=
  ⟨(align_modifies_one_modality 0 0 ([] : List Int) [5]).1 (by decide),
   (align_modifies_one_modality 0 0 ([] : List Int) [5, 6]).2 (by decide)⟩

/-! ### The tarred streaming pipeline: `_filter` and `_loop_offsets`

A streamed tar item is the triple `(audio_bytes, video_bytes,
audio_filename)` produced by `to_tuple('audio', 'video', 'key')`.  The
manifest collection's file-id mapping is modelled as a partial map
`String → Option (List Nat)` from file ids to the list of manifest
indices (one per offset); `file_id in mapping` is `isSome`, and a
lookup of an absent key is a `KeyError`.  The extraction
`os.path.splitext(os.path.basename(·))` performed by `_filter` is kept
abstract as a function `fid : String → String`. -/

/-- A streamed tar item `(audio_bytes, video_bytes, audio_filename)`. -/
structure TarItem (A V : Type) where
  audio : A
  video : V
  fname : String

/-- One call of `TarredAudioFilter.__next__`: repeatedly pull from the
underlying stream until an item whose file id is in the mapping is
found (returned together with the not-yet-pulled remainder), or the
stream is exhausted (`StopIteration`). -/
def filterStep {A V : Type} (mapping : String → Option (List Nat))
    (fid : String → String) :
    List (TarItem A V) → Option (TarItem A V × List (TarItem A V))
  | [] => Option.none
  | i :: rest =>
    if (mapping (fid i.fname)).isSome then some (i, rest)
    else filterStep mapping fid rest

lemma filterStep_length {A V : Type} (mapping : String → Option (List Nat))
    (fid : String → String) :
    ∀ (items : List (TarItem A V)) i rest,
      filterStep mapping fid items = some (i, rest) →
      rest.length < items.length := by
  intro items
  induction items with
  | nil => intro i rest h; simp [filterStep] at h
  | cons a tl ih =>
    intro i rest h
    by_cases hm : (mapping (fid a.fname)).isSome
    · rw [filterStep, if_pos hm] at h
      obtain ⟨rfl, rfl⟩ : a = i ∧ tl = rest := by
        constructor <;> [exact congrArg Prod.fst (Option.some.inj h);
          exact congrArg Prod.snd (Option.some.inj h)]
      simp
    · rw [filterStep, if_neg hm] at h
      have := ih i rest h
      simp only [List.length_cons]
      omega

/-- Driving `TarredAudioFilter` to exhaustion: the whole output stream
of the `_filter` stage on a finite underlying stream. -/
def runFilter {A V : Type} (mapping : String → Option (List Nat))
    (fid : String → String) (items : List (TarItem A V)) :
    List (TarItem A V) :=
  match h : filterStep mapping fid items with
  | Option.none => []
  | some (i, rest) => i :: runFilter mapping fid rest
termination_by items.length
decreasing_by exact filterStep_length mapping fid items i rest h

lemma runFilter_eq {A V : Type} (mapping : String → Option (List Nat))
    (fid : String → String) (items : List (TarItem A V)) :
    runFilter mapping fid items =
      match filterStep mapping fid items with
      | Option.none => []
      | some (i, rest) => i :: runFilter mapping fid rest := by
  conv_lhs => unfold runFilter
  split
  case _ heq => rw [heq]
  case _ i rest heq => rw [heq]

lemma runFilter_nil {A V : Type} (mapping : String → Option (List Nat))
    (fid : String → String) :
    runFilter (A := A) (V := V) mapping fid [] = [] := by
  rw [runFilter_eq]
  simp [filterStep]

lemma runFilter_cons {A V : Type} (mapping : String → Option (List Nat))
    (fid : String → String) (i : TarItem A V) (rest : List (TarItem A V)) :
    runFilter mapping fid (i :: rest) =
      if (mapping (fid i.fname)).isSome then i :: runFilter mapping fid rest
      else runFilter mapping fid rest := by
  rw [runFilter_eq]
  by_cases hm : (mapping (fid i.fname)).isSome
  · rw [filterStep, if_pos hm, if_pos hm]
  · rw [filterStep, if_neg hm, if_neg hm, ← runFilter_eq]

/-- C6: the `_filter` stage emits exactly the subsequence of streamed
items whose file id (as extracted by `splitext(basename(·))`) is a key
of the manifest mapping; items with an absent file id are dropped and
no error is raised. -/
theorem filter_emits_mapped_subsequence {A V : Type}
    (mapping : String → Option (List Nat)) (fid : String → String)
    (items : List (TarItem A V)) :
    runFilter mapping fid items =
      items.filter (fun i => (mapping (fid i.fname)).isSome) := by
  induction items with
  | nil => simp [runFilter_nil]
  | cons i rest ih =>
    rw [runFilter_cons, ih]
    by_cases hm : (mapping (fid i.fname)).isSome
    · simp [hm, List.filter_cons]
    · simp [hm, List.filter_cons]

/-- The mutable state of `TarredAudioLoopOffsets`: the current item
(`current_audio_bytes`, `current_video_bytes`, `current_fn`, all
`None` initially), the current offset index, and the not-yet-pulled
remainder of the underlying (filtered) stream. -/
structure LoopState (A V : Type) where
  current : Option (TarItem A V)
  offset_id : Nat
  rest : List (TarItem A V)

/-- One call of `TarredAudioLoopOffsets.__next__`.  `Except.error`
models the `KeyError` of `self.collection.mapping[self.current_fn]`,
`Except.ok Option.none` models `StopIteration` from the underlying
stream, and `Except.ok (some (out, st))` is a yielded output
`(audio_bytes, video_bytes, fn, offset_id)` together with the successor
state. -/
def loopStep {A V : Type} (mapping : String → Option (List Nat))
    (st : LoopState A V) :
    Except String (Option ((TarItem A V × Nat) × LoopState A V)) :=
  match st.current with
  | Option.none =>
    match st.rest with
    | [] => .ok Option.none
    | i :: r => .ok (some ((i, 0), ⟨some i, 0, r⟩))
  | some cur =>
    match mapping cur.fname with
    | Option.none => .error "KeyError"
    | some offset_list =>
      if offset_list.length = st.offset_id + 1 then
        match st.rest with
        | [] => .ok Option.none
        | i :: r => .ok (some ((i, 0), ⟨some i, 0, r⟩))
      else
        .ok (some ((cur, st.offset_id + 1), ⟨some cur, st.offset_id + 1, st.rest⟩))

/-- Driving `TarredAudioLoopOffsets` for at most `fuel` yields: the
output stream of the `_loop_offsets` stage (truncated at `fuel`, and at
the first `StopIteration` or `KeyError`). -/
def runLoop {A V : Type} (mapping : String → Option (List Nat)) :
    Nat → LoopState A V → List (TarItem A V × Nat)
  | 0, _ => []
  | fuel + 1, st =>
    match loopStep mapping st with
    | .ok (some (out, st')) => out :: runLoop mapping fuel st'
    | _ => []

/-- The number of manifest offsets registered for an item's file name:
`len(self.collection.mapping[fn])`, with `0` for an absent key. -/
def offsetCount (mapping : String → Option (List Nat)) (i : TarItem A V) : Nat :=
  ((mapping i.fname).getD []).length

/-- Total number of logical samples an item list denotes: one per
manifest offset of each item. -/
def totalOffsets (mapping : String → Option (List Nat))
    (items : List (TarItem A V)) : Nat :=
  (items.map (offsetCount mapping)).sum

/-- The per-offset expansion of an item list: each item repeated once
per manifest offset, tagged with offset ids `0, 1, ..., k-1` in order. -/
def offsetExpansion (mapping : String → Option (List Nat))
    (items : List (TarItem A V)) : List (TarItem A V × Nat) :=
  items.flatMap (fun i => (List.range (offsetCount mapping i)).map (fun o => (i, o)))

lemma isSome_of_one_le_offsetCount {A V : Type}
    (mapping : String → Option (List Nat)) (i : TarItem A V)
    (h : 1 ≤ offsetCount mapping i) : (mapping i.fname).isSome := by
  unfold offsetCount at h
  cases hm : mapping i.fname with
  | none => rw [hm] at h; simp at h
  | some l => simp

lemma totalOffsets_nil {A V : Type} (mapping : String → Option (List Nat)) :
    totalOffsets (A := A) (V := V) mapping [] = 0 := rfl

lemma totalOffsets_cons {A V : Type} (mapping : String → Option (List Nat))
    (i : TarItem A V) (r : List (TarItem A V)) :
    totalOffsets mapping (i :: r) = offsetCount mapping i + totalOffsets mapping r := by
  simp [totalOffsets]

lemma offsetExpansion_nil {A V : Type} (mapping : String → Option (List Nat)) :
    offsetExpansion (A := A) (V := V) mapping [] = [] := rfl

lemma offsetExpansion_cons {A V : Type} (mapping : String → Option (List Nat))
    (i : TarItem A V) (r : List (TarItem A V)) :
    offsetExpansion mapping (i :: r) =
      (List.range (offsetCount mapping i)).map (fun o => (i, o)) ++
        offsetExpansion mapping r := by
  simp [offsetExpansion]

/-- After yielding `(i, 0)` the iterator continues with state
`⟨some i, 0, r⟩`; this helper packages the pull performed both from the
initial state and when the current offset list is exhausted. -/
lemma runLoop_pull {A V : Type} (mapping : String → Option (List Nat))
    (fuel : Nat) (i : TarItem A V) (r : List (TarItem A V))
    (hone : 1 ≤ offsetCount mapping i)
    (ih : ∀ st : LoopState A V,
      (∀ j ∈ st.rest, 1 ≤ offsetCount mapping j) →
      (match st.current with
       | Option.none =>
         totalOffsets mapping st.rest = fuel →
         runLoop mapping fuel st = offsetExpansion mapping st.rest
       | some cur =>
         (mapping cur.fname).isSome = true →
         st.offset_id < offsetCount mapping cur →
         offsetCount mapping cur - (st.offset_id + 1) + totalOffsets mapping st.rest = fuel →
         runLoop mapping fuel st =
           ((List.range (offsetCount mapping cur - (st.offset_id + 1))).map
             (fun j => (cur, st.offset_id + 1 + j))) ++ offsetExpansion mapping st.rest))
    (hr : ∀ j ∈ r, 1 ≤ offsetCount mapping j)
    (htot : offsetCount mapping i + totalOffsets mapping r = fuel + 1) :
    (i, 0) :: runLoop mapping fuel ⟨some i, 0, r⟩ = offsetExpansion mapping (i :: r) := by
  have hsome := isSome_of_one_le_offsetCount mapping i hone
  have htail := ih ⟨some i, 0, r⟩ hr
  simp only at htail
  have hrun := htail hsome (by omega) (by omega)
  rw [hrun, offsetExpansion_cons]
  obtain ⟨m, hm⟩ : ∃ m, offsetCount mapping i = m + 1 := ⟨offsetCount mapping i - 1, by omega⟩
  rw [hm]
  simp only [Nat.add_sub_cancel, List.range_succ_eq_map, List.map_cons, List.map_map,
    List.cons_append]
  congr 2
  apply List.map_congr_left
  intro j _
  simp [Function.comp, Nat.add_comm, Nat.succ_eq_add_one]

lemma runLoop_invariant {A V : Type} (mapping : String → Option (List Nat)) :
    ∀ (fuel : Nat) (st : LoopState A V),
      (∀ i ∈ st.rest, 1 ≤ offsetCount mapping i) →
      (match st.current with
       | Option.none =>
         totalOffsets mapping st.rest = fuel →
         runLoop mapping fuel st = offsetExpansion mapping st.rest
       | some cur =>
         (mapping cur.fname).isSome = true →
         st.offset_id < offsetCount mapping cur →
         offsetCount mapping cur - (st.offset_id + 1) + totalOffsets mapping st.rest = fuel →
         runLoop mapping fuel st =
           ((List.range (offsetCount mapping cur - (st.offset_id + 1))).map
             (fun j => (cur, st.offset_id + 1 + j))) ++ offsetExpansion mapping st.rest) := by
  intro fuel
  induction fuel with
  | zero =>
    rintro ⟨cur?, off, rest⟩ hrest
    cases cur? with
    | none =>
      intro htot
      cases rest with
      | nil => simp [runLoop, offsetExpansion_nil]
      | cons i r =>
        exfalso
        have h1 := hrest i (by simp)
        rw [totalOffsets_cons] at htot
        omega
    | some cur =>
      intro _ hoff htot
      dsimp only at hoff htot ⊢
      cases rest with
      | nil =>
        simp only [totalOffsets_nil] at htot
        rw [runLoop]
        rw [show offsetCount mapping cur - (off + 1) = 0 from by omega]
        simp [offsetExpansion_nil]
      | cons i r =>
        exfalso
        have h1 := hrest i (by simp)
        rw [totalOffsets_cons] at htot
        omega
  | succ fuel ih =>
    rintro ⟨cur?, off, rest⟩ hrest
    cases cur? with
    | none =>
      intro htot
      dsimp only at htot ⊢
      cases rest with
      | nil => rw [totalOffsets_nil] at htot; omega
      | cons i r =>
        have hr : ∀ j ∈ r, 1 ≤ offsetCount mapping j := by
          intro j hj; exact hrest j (by simp [hj])
        have hi := hrest i (by simp)
        rw [totalOffsets_cons] at htot
        have hstep : runLoop mapping (fuel + 1) ⟨Option.none, off, i :: r⟩ =
            (i, 0) :: runLoop mapping fuel ⟨some i, 0, r⟩ := by
          rw [runLoop]
          rfl
        rw [hstep]
        exact runLoop_pull mapping fuel i r hi ih hr htot
    | some cur =>
      intro hsome hoff htot
      dsimp only at hsome hoff htot ⊢
      obtain ⟨l, hl⟩ := Option.isSome_iff_exists.mp hsome
      have hk : offsetCount mapping cur = l.length := by
        unfold offsetCount; rw [hl]; rfl
      by_cases hex : l.length = off + 1
      · -- the current offset list is exhausted: pull the next item
        rw [show offsetCount mapping cur - (off + 1) = 0 from by omega,
          List.range_zero, List.map_nil, List.nil_append]
        cases rest with
        | nil =>
          exfalso
          rw [totalOffsets_nil] at htot
          omega
        | cons i r =>
          have hr : ∀ j ∈ r, 1 ≤ offsetCount mapping j := by
            intro j hj; exact hrest j (by simp [hj])
          have hi := hrest i (by simp)
          rw [totalOffsets_cons] at htot
          have hstep : runLoop mapping (fuel + 1) ⟨some cur, off, i :: r⟩ =
              (i, 0) :: runLoop mapping fuel ⟨some i, 0, r⟩ := by
            rw [runLoop, loopStep]
            simp [hl, hex]
          rw [hstep]
          exact runLoop_pull mapping fuel i r hi ih hr (by omega)
      · -- more offsets remain for the current item: advance the cursor
        have hstep : runLoop mapping (fuel + 1) ⟨some cur, off, rest⟩ =
            (cur, off + 1) :: runLoop mapping fuel ⟨some cur, off + 1, rest⟩ := by
          rw [runLoop, loopStep]
          simp [hl, hex]
        rw [hstep]
        have htail := ih ⟨some cur, off + 1, rest⟩ hrest
        simp only at htail
        have hoff2 : off + 1 < offsetCount mapping cur := by omega
        have hrun := htail hsome hoff2 (by omega)
        rw [hrun]
        obtain ⟨m, hm⟩ : ∃ m, offsetCount mapping cur - (off + 1) = m + 1 :=
          ⟨offsetCount mapping cur - (off + 2), by omega⟩
        rw [hm, show offsetCount mapping cur - (off + 1 + 1) = m from by omega]
        rw [List.range_succ_eq_map]
        simp only [List.map_cons, List.map_map, List.cons_append]
        congr 2
        apply List.map_congr_left
        intro j _
        simp only [Function.comp_apply, Nat.succ_eq_add_one]
        congr 1
        omega

/-- C5: started on a stream of items each of whose file names is mapped
to at least one manifest offset, the `_loop_offsets` iterator yields,
for each item in order, exactly `k` consecutive outputs carrying offset
indices `0, 1, ..., k-1` (where `k` is the number of offsets of that
item), advancing the underlying stream only after the `k`-th output:
the full yield sequence is the per-offset expansion of the item list,
one logical sample per manifest offset. -/
theorem loop_offsets_yields_offset_expansion {A V : Type}
    (mapping : String → Option (List Nat)) (items : List (TarItem A V))
    (hall : ∀ i ∈ items, 1 ≤ offsetCount mapping i) :
    runLoop mapping (totalOffsets mapping items) ⟨Option.none, 0, items⟩ =
      offsetExpansion mapping items := by
  exact (runLoop_invariant mapping (totalOffsets mapping items)
    ⟨Option.none, 0, items⟩ hall) rfl

/-- Closed witness for `loop_offsets_yields_offset_expansion`: a
two-item stream whose first file has two offsets and whose second has
one. -/
theorem loop_offsets_yields_offset_expansion_witness :
    runLoop (A := Nat) (V := Nat)
        (fun s => if s = "a" then some [10, 20] else if s = "b" then some [7] else Option.none)
        (totalOffsets (fun s => if s = "a" then some [10, 20] else if s = "b" then some [7] else Option.none)
          [⟨1, 2, "a"⟩, ⟨3, 4, "b"⟩])
        ⟨Option.none, 0, [⟨1, 2, "a"⟩, ⟨3, 4, "b"⟩]⟩ =
      offsetExpansion
        (fun s => if s = "a" then some [10, 20] else if s = "b" then some [7] else Option.none)
        [⟨1, 2, "a"⟩, ⟨3, 4, "b"⟩] :=
  loop_offsets_yields_offset_expansion _ _ (by decide)

/-! ### Batch collation: `_audio_video_speech_collate_fn`

A sample tuple is a Python tuple of dynamically typed values, modelled
as a `List (Val β)`: a value is `None`, a 0-dim length tensor (a
natural number), a 1-D audio tensor (a list of samples, modelled over
`Int`), a 4-D video tensor (a list of frames of type `β`), or a 1-D
token tensor.  `zip(*batch)` is `pyZip`, which transposes a list of
rows truncating at the shortest row, exactly like Python `zip`.
Exceptions are `Except.error` values whose message records the Python
exception raised. -/

/-- A dynamically typed Python value occurring in a sample tuple. -/
inductive Val (β : Type) where
  | none
  | nat (n : Nat)
  | aud (xs : List Int)
  | vid (xs : List β)
  | tok (xs : List Int)
  deriving DecidableEq

instance {β : Type} : Inhabited (Val β) := ⟨Val.none⟩

/-- The tuple of first elements of every row, or `Option.none` if some
row is empty (the step of `zip(*batch)`). -/
def heads? {γ : Type} : List (List γ) → Option (List γ)
  | [] => some []
  | [] :: _ => Option.none
  | (a :: _) :: rows =>
    match heads? rows with
    | Option.none => Option.none
    | some col => some (a :: col)

/-- Python `list(zip(*batch))`: transpose a list of rows, truncating at
the shortest row; `zip()` of no rows is empty. -/
def pyZip {γ : Type} : List (List γ) → List (List γ)
  | [] => []
  | [] :: _ => []
  | (a :: t) :: rows =>
    match heads? rows with
    | Option.none => []
    | some col => (a :: col) :: pyZip (t :: rows.map List.tail)
termination_by l => (l.headD []).length
decreasing_by simp

lemma heads?_of_ne_nil {γ : Type} (d : γ) :
    ∀ rows : List (List γ), (∀ r ∈ rows, r ≠ []) →
      heads? rows = some (rows.map (fun r => r.headD d)) := by
  intro rows
  induction rows with
  | nil => intro _; rfl
  | cons r rs ih =>
    intro hall
    have hr := hall r (by simp)
    match r with
    | [] => exact absurd rfl hr
    | a :: t =>
      have := ih (fun x hx => hall x (by simp [hx]))
      simp only [heads?, this, List.map_cons, List.headD_cons]

lemma heads?_none_of_mem_nil {γ : Type} :
    ∀ rows : List (List γ), [] ∈ rows → heads? rows = Option.none := by
  intro rows
  induction rows with
  | nil => intro h; simp at h
  | cons r rs ih =>
    intro hmem
    match r with
    | [] => rfl
    | a :: t =>
      have hmem' : [] ∈ rs := by
        rcases List.mem_cons.mp hmem with h | h
        · exact absurd h.symm (by simp)
        · exact h
      simp only [heads?, ih hmem']

lemma pyZip_nil_of_mem_nil {γ : Type} :
    ∀ rows : List (List γ), [] ∈ rows → pyZip rows = [] := by
  intro rows hmem
  match rows with
  | [] => simp at hmem
  | [] :: rs => rw [pyZip]
  | (a :: t) :: rs =>
    have hmem' : [] ∈ rs := by
      rcases List.mem_cons.mp hmem with h | h
      · exact absurd h.symm (by simp)
      · exact h
    rw [pyZip, heads?_none_of_mem_nil rs hmem']

lemma pyZip_step {γ : Type} [Inhabited γ] :
    ∀ rows : List (List γ), rows ≠ [] → (∀ r ∈ rows, r ≠ []) →
      pyZip rows = (rows.map (fun r => r.headD default)) :: pyZip (rows.map List.tail) := by
  intro rows h0 hall
  match rows with
  | [] => exact absurd rfl h0
  | r :: rs =>
    have hr := hall r (by simp)
    match r with
    | [] => exact absurd rfl hr
    | a :: t =>
      rw [pyZip, heads?_of_ne_nil default rs (fun x hx => hall x (by simp [hx]))]
      simp only [List.map_cons, List.headD_cons, List.tail_cons]

/-- `pyZip` of mapped rows, peeling one leading component off every
row. -/
lemma pyZip_map_cons {γ σ : Type} [Inhabited γ] (samples : List σ)
    (hs : samples ≠ []) (h : σ → γ) (t : σ → List γ) :
    pyZip (samples.map (fun s => h s :: t s)) =
      (samples.map h) :: pyZip (samples.map t) := by
  rw [pyZip_step (samples.map (fun s => h s :: t s))
    (by simpa using hs) (by simp)]
  congr 1
  · rw [List.map_map]
    apply List.map_congr_left
    intro s _
    simp
  · congr 1
    rw [List.map_map]
    apply List.map_congr_left
    intro s _
    simp

lemma pyZip_length_ge {γ : Type} [Inhabited γ] :
    ∀ (n : Nat) (rows : List (List γ)), rows ≠ [] →
      (∀ r ∈ rows, n ≤ r.length) → n ≤ (pyZip rows).length := by
  intro n
  induction n with
  | zero => intro rows _ _; omega
  | succ n ih =>
    intro rows h0 hall
    rw [pyZip_step rows h0 (by intro r hr; have := hall r hr; intro hnil; simp [hnil] at this)]
    simp only [List.length_cons]
    have : n ≤ (pyZip (rows.map List.tail)).length := by
      refine ih (rows.map List.tail) (by simpa using h0) ?_
      intro r hr
      obtain ⟨x, hx, rfl⟩ := List.mem_map.mp hr
      have := hall x hx
      simp only [List.length_tail]
      omega
    omega

lemma pyZip_length_le {γ : Type} [Inhabited γ] :
    ∀ (r : List γ) (rows : List (List γ)), r ∈ rows →
      (pyZip rows).length ≤ r.length := by
  intro r
  induction r with
  | nil => intro rows hmem; rw [pyZip_nil_of_mem_nil rows hmem]; simp
  | cons a t ih =>
    intro rows hmem
    by_cases hex : [] ∈ rows
    · rw [pyZip_nil_of_mem_nil rows hex]; simp
    · rw [pyZip_step rows (by rintro rfl; simp at hmem)
        (by intro x hx; intro hnil; exact hex (hnil ▸ hx))]
      simp only [List.length_cons]
      have : (pyZip (rows.map List.tail)).length ≤ t.length := by
        have : (a :: t).tail ∈ rows.map List.tail := List.mem_map_of_mem List.tail hmem
        simpa using ih (rows.map List.tail) (by simpa using this)
      omega

/-- `.item()` on a 0-dim length tensor: succeeds only on a number. -/
def Val.item? {β : Type} : Val β → Option Nat
  | .nat n => some n
  | _ => Option.none

/-- The payload of a 1-D audio tensor. -/
def Val.aud? {β : Type} : Val β → Option (List Int)
  | .aud xs => some xs
  | _ => Option.none

/-- The payload of a video tensor. -/
def Val.vid? {β : Type} : Val β → Option (List β)
  | .vid xs => some xs
  | _ => Option.none

/-- The payload of a 1-D token tensor. -/
def Val.tok? {β : Type} : Val β → Option (List Int)
  | .tok xs => some xs
  | _ => Option.none

/-- Python `max(lengths).item()` over a column of 0-dim length tensors:
`TypeError` if a non-number (e.g. `None`) is present, `ValueError` on
an empty column. -/
def maxItem {β : Type} (col : List (Val β)) : Except String Nat :=
  match col.mapM Val.item? with
  | Option.none => .error "TypeError: max"
  | some ns =>
    match ns with
    | [] => .error "ValueError: max() arg is an empty sequence"
    | n :: rest => .ok (rest.foldl Nat.max n)

/-- The audio step of the collate loop: when `has_audio`, read
`audio_sig_len.item()` and, if it is below the batch maximum, append
`max_audio_len - audio_sig_len` zeros via
`torch.nn.functional.pad(audio_sig, (0, max_audio_len - audio_sig_len))`;
otherwise the value is passed through untouched. -/
def padAudioVal {β : Type} (hasAudio : Bool) (maxA : Nat) (a al : Val β) :
    Except String (Val β) :=
  if hasAudio then
    match al.item? with
    | Option.none => .error "AttributeError: item"
    | some n =>
      if n < maxA then
        match a with
        | .aud xs => .ok (.aud (xs ++ List.replicate (maxA - n) 0))
        | _ => .error "TypeError: pad"
      else .ok a
  else .ok a

/-- The video step of the collate loop: pad tuple
`(0, 0, 0, 0, 0, 0, 0, max_video_len - video_sig_len)` appends zero
frames (`zB`) at the end of the frame dimension. -/
def padVideoVal {β : Type} (hasVideo : Bool) (zB : β) (maxV : Nat) (v vl : Val β) :
    Except String (Val β) :=
  if hasVideo then
    match vl.item? with
    | Option.none => .error "AttributeError: item"
    | some n =>
      if n < maxV then
        match v with
        | .vid xs => .ok (.vid (xs ++ List.replicate (maxV - n) zB))
        | _ => .error "TypeError: pad"
      else .ok v
  else .ok v

/-- The token step of the collate loop: pad with `pad_id` to the batch
maximum token length. -/
def padTokensVal {β : Type} (padId : Int) (maxT : Nat) (t tl : Val β) :
    Except String (Val β) :=
  match tl.item? with
  | Option.none => .error "AttributeError: item"
  | some n =>
    if n < maxT then
      match t with
      | .tok xs => .ok (.tok (xs ++ List.replicate (maxT - n) padId))
      | _ => .error "TypeError: pad"
    else .ok t

/-- The body of the collate loop for one sample tuple `b`: unpack by
`len(b)` (7 discards the trailing sample id, any arity other than 6 or
7 raises the unpacking `ValueError`), then pad audio, video and tokens
in source order. -/
def processRow {β : Type} (hasAudio hasVideo : Bool) (zB : β) (padId : Int)
    (maxA maxV maxT : Nat) (b : List (Val β)) :
    Except String (Val β × Val β × Val β) :=
  match b with
  | [a, al, v, vl, t, tl, _] => do
    let pa ← padAudioVal hasAudio maxA a al
    let pv ← padVideoVal hasVideo zB maxV v vl
    let pt ← padTokensVal padId maxT t tl
    Except.ok (pa, pv, pt)
  | [a, al, v, vl, t, tl] => do
    let pa ← padAudioVal hasAudio maxA a al
    let pv ← padVideoVal hasVideo zB maxV v vl
    let pt ← padTokensVal padId maxT t tl
    Except.ok (pa, pv, pt)
  | _ => .error "ValueError: unpack"

/-- `torch.stack` on a list of 1-D audio tensors: all entries must be
audio tensors of equal length and the list must be non-empty. -/
def stackAud {β : Type} (vs : List (Val β)) : Except String (List (List Int)) :=
  match vs.mapM Val.aud? with
  | Option.none => .error "TypeError: stack"
  | some rows =>
    match rows with
    | [] => .error "RuntimeError: stack expects a non-empty list"
    | r :: rest =>
      if rest.all (fun x => x.length = r.length) then .ok (r :: rest)
      else .error "RuntimeError: stack shape"

/-- `torch.stack` on a list of video tensors. -/
def stackVid {β : Type} (vs : List (Val β)) : Except String (List (List β)) :=
  match vs.mapM Val.vid? with
  | Option.none => .error "TypeError: stack"
  | some rows =>
    match rows with
    | [] => .error "RuntimeError: stack expects a non-empty list"
    | r :: rest =>
      if rest.all (fun x => x.length = r.length) then .ok (r :: rest)
      else .error "RuntimeError: stack shape"

/-- `torch.stack` on a list of 1-D token tensors. -/
def stackTok {β : Type} (vs : List (Val β)) : Except String (List (List Int)) :=
  match vs.mapM Val.tok? with
  | Option.none => .error "TypeError: stack"
  | some rows =>
    match rows with
    | [] => .error "RuntimeError: stack expects a non-empty list"
    | r :: rest =>
      if rest.all (fun x => x.length = r.length) then .ok (r :: rest)
      else .error "RuntimeError: stack shape"

/-- `torch.stack` on a column of 0-dim length tensors, producing a 1-D
length tensor. -/
def stackLens {β : Type} (col : List (Val β)) : Except String (List Nat) :=
  match col.mapM Val.item? with
  | Option.none => .error "TypeError: stack"
  | some ns =>
    match ns with
    | [] => .error "RuntimeError: stack expects a non-empty list"
    | _ :: _ => .ok ns

/-- `torch.tensor(sample_ids, dtype=torch.int32)`: every entry must be
a number. -/
def tensorIds {β : Type} (col : List (Val β)) : Except String (List Nat) :=
  match col.mapM Val.item? with
  | Option.none => .error "TypeError: tensor"
  | some ns => .ok ns

/-- The returned tuple of `_audio_video_speech_collate_fn`. -/
structure CollateOut (β : Type) where
  audio_signal : Option (List (List Int))
  audio_lengths : Option (List Nat)
  video_signal : Option (List (List β))
  video_lengths : Option (List Nat)
  tokens : List (List Int)
  tokens_lengths : List Nat
  sample_ids : Option (List Nat)
  deriving DecidableEq

/-- Python truthiness of `x is not None` on a tuple entry. -/
def isNotNone {β : Type} (v : Val β) : Bool :=
  match v with
  | Val.none => false
  | _ => true

/-- The body of `_audio_video_speech_collate_fn` after the arity
dispatch: `has_audio = audio_lengths[0] is not None` (and likewise for
video), batch maxima, the per-sample padding loop, and the stacking
phase, in source order. -/
def collateCore {β : Type} (zB : β) (padId : Int) (batch : List (List (Val β)))
    (audioLens videoLens tokensLens : List (Val β))
    (sampleIds : Option (List (Val β))) : Except String (CollateOut β) :=
  (match audioLens.head? with
   | Option.none => Except.error "IndexError: list index out of range"
   | some v => Except.ok v) >>= fun v0a =>
  let hasAudio : Bool := isNotNone v0a
  (if hasAudio then maxItem audioLens else Except.ok 0) >>= fun maxA =>
  (match videoLens.head? with
   | Option.none => Except.error "IndexError: list index out of range"
   | some v => Except.ok v) >>= fun v0v =>
  let hasVideo : Bool := isNotNone v0v
  (if hasVideo then maxItem videoLens else Except.ok 0) >>= fun maxV =>
  maxItem tokensLens >>= fun maxT =>
  batch.mapM (processRow hasAudio hasVideo zB padId maxA maxV maxT) >>= fun triples =>
  (if hasAudio then
      stackAud (triples.map (fun p => p.1)) >>= fun rows =>
      stackLens audioLens >>= fun ls =>
      Except.ok (some rows, some ls)
    else Except.ok (Option.none, Option.none)) >>= fun audioOut =>
  (if hasVideo then
      stackVid (triples.map (fun p => p.2.1)) >>= fun rows =>
      stackLens videoLens >>= fun ls =>
      Except.ok (some rows, some ls)
    else Except.ok (Option.none, Option.none)) >>= fun videoOut =>
  stackTok (triples.map (fun p => p.2.2)) >>= fun toks =>
  stackLens tokensLens >>= fun tlens =>
  (match sampleIds with
   | Option.none => Except.ok Option.none
   | some col => tensorIds col >>= fun ns => Except.ok (some ns)) >>= fun sids =>
  Except.ok ⟨audioOut.1, audioOut.2, videoOut.1, videoOut.2, toks, tlens, sids⟩

/-- The arity-validation error raised by
`raise ValueError("Expects 6 or 7 tensors in the batch!")`. -/
def collateArityError : String := "Expects 6 or 7 tensors in the batch!"

/-- Shallow embedding of `_audio_video_speech_collate_fn`: transpose
the batch with `zip(*batch)` (`pyZip`), dispatch on the number of
transposed component sequences (7, then 6, else the input-validation
`ValueError`), then run the collate body. -/
def audioVideoSpeechCollate {β : Type} (zB : β) (batch : List (List (Val β)))
    (padId : Int) : Except String (CollateOut β) :=
  match pyZip batch with
  | [_, audioLens, _, videoLens, _, tokensLens, sampleIds] =>
    collateCore zB padId batch audioLens videoLens tokensLens (some sampleIds)
  | [_, audioLens, _, videoLens, _, tokensLens] =>
    collateCore zB padId batch audioLens videoLens tokensLens Option.none
  | _ => .error collateArityError

/-! ### Structured sample tuples

The datasets emit tuples `(audio, audio_len, video, video_len, tokens,
tokens_len[, sample_id])` in which each length entry is the leading
dimension of its tensor and a missing modality is `None` in both
positions.  `MSample.toRow` renders such a structured sample as the raw
dynamically typed tuple fed to the collate function. -/

/-- A structured sample tuple. -/
structure MSample (β : Type) where
  audio : Option (List Int)
  video : Option (List β)
  toks : List Int
  sid : Option Nat

/-- The audio-signal entry of the tuple. -/
def MSample.audioVal {β : Type} (s : MSample β) : Val β :=
  match s.audio with
  | some xs => .aud xs
  | Option.none => .none

/-- The audio-length entry of the tuple (the tensor's leading
dimension). -/
def MSample.audioLenVal {β : Type} (s : MSample β) : Val β :=
  match s.audio with
  | some xs => .nat xs.length
  | Option.none => .none

/-- The video-signal entry of the tuple. -/
def MSample.videoVal {β : Type} (s : MSample β) : Val β :=
  match s.video with
  | some xs => .vid xs
  | Option.none => .none

/-- The video-length entry of the tuple. -/
def MSample.videoLenVal {β : Type} (s : MSample β) : Val β :=
  match s.video with
  | some xs => .nat xs.length
  | Option.none => .none

/-- The optional trailing sample-id entry. -/
def MSample.sidTail {β : Type} (s : MSample β) : List (Val β) :=
  match s.sid with
  | some n => [.nat n]
  | Option.none => []

/-- The raw 6- or 7-element tuple of a structured sample. -/
def MSample.toRow {β : Type} (s : MSample β) : List (Val β) :=
  [s.audioVal, s.audioLenVal, s.videoVal, s.videoLenVal,
    .tok s.toks, .nat s.toks.length] ++ s.sidTail

/-- The audio length of a structured sample (`0` when absent). -/
def MSample.aLen {β : Type} (s : MSample β) : Nat := (s.audio.getD []).length

/-- The video length of a structured sample (`0` when absent). -/
def MSample.vLen {β : Type} (s : MSample β) : Nat := (s.video.getD []).length

/-- Python `max` over a list of naturals (`0` on `[]`, on which Python
would raise instead). -/
def pymax (l : List Nat) : Nat :=
  match l with
  | [] => 0
  | n :: rest => rest.foldl Nat.max n

lemma exceptBind_ok {γ δ : Type} (a : γ) (f : γ → Except String δ) :
    (Except.ok a : Except String γ) >>= f = f a := rfl

lemma exceptPure_eq_ok {γ : Type} (a : γ) :
    (pure a : Except String γ) = Except.ok a := rfl

lemma mapM_map_some {σ γ δ : Type} (F : γ → Option δ) (row : σ → γ) (g : σ → δ) :
    ∀ samples : List σ, (∀ s ∈ samples, F (row s) = some (g s)) →
      (samples.map row).mapM F = some (samples.map g) := by
  intro samples
  induction samples with
  | nil => intro _; rfl
  | cons x xs ih =>
    intro hall
    simp only [List.map_cons, List.mapM_cons, hall x (by simp),
      ih (fun s hs => hall s (by simp [hs])), Option.pure_def, Option.bind_some]
    rfl

lemma foldl_max_init_le : ∀ (l : List Nat) (n : Nat), n ≤ l.foldl Nat.max n := by
  intro l
  induction l with
  | nil => intro n; simp
  | cons a tl ih =>
    intro n
    have h1 := ih (Nat.max n a)
    simp only [List.foldl_cons]
    exact le_trans (Nat.le_max_left n a) h1

lemma le_foldl_max_of_mem : ∀ (l : List Nat) (n x : Nat), x ∈ l → x ≤ l.foldl Nat.max n := by
  intro l
  induction l with
  | nil => intro n x hx; simp at hx
  | cons a tl ih =>
    intro n x hx
    rcases List.mem_cons.mp hx with rfl | hx
    · have h1 := foldl_max_init_le tl (Nat.max n x)
      simp only [List.foldl_cons]
      exact le_trans (Nat.le_max_right n x) h1
    · simpa using ih (Nat.max n a) x hx

lemma le_pymax_of_mem {l : List Nat} {x : Nat} (hx : x ∈ l) : x ≤ pymax l := by
  match l with
  | [] => simp at hx
  | n :: rest =>
    rcases List.mem_cons.mp hx with rfl | hx
    · exact foldl_max_init_le rest x
    · exact le_foldl_max_of_mem rest n x hx

lemma maxItem_nat_col {β σ : Type} (f : σ → Nat) (x : σ) (xs : List σ) :
    maxItem (β := β) ((x :: xs).map (fun s => Val.nat (f s))) =
      Except.ok (pymax ((x :: xs).map f)) := by
  unfold maxItem
  rw [mapM_map_some Val.item? (fun s => Val.nat (f s)) f (x :: xs) (fun s _ => rfl)]
  simp [pymax]

lemma stackLens_nat_col {β σ : Type} (f : σ → Nat) (x : σ) (xs : List σ) :
    stackLens (β := β) ((x :: xs).map (fun s => Val.nat (f s))) =
      Except.ok ((x :: xs).map f) := by
  unfold stackLens
  rw [mapM_map_some Val.item? (fun s => Val.nat (f s)) f (x :: xs) (fun s _ => rfl)]
  simp

lemma tensorIds_nat_col {β σ : Type} (f : σ → Nat) (samples : List σ) :
    tensorIds (β := β) (samples.map (fun s => Val.nat (f s))) =
      Except.ok (samples.map f) := by
  unfold tensorIds
  rw [mapM_map_some Val.item? (fun s => Val.nat (f s)) f samples (fun s _ => rfl)]

lemma stackAud_map {β σ : Type} (g : σ → List Int) (L : Nat) (x : σ) (xs : List σ)
    (hall : ∀ s ∈ x :: xs, (g s).length = L) :
    stackAud (β := β) ((x :: xs).map (fun s => Val.aud (g s))) =
      Except.ok ((x :: xs).map g) := by
  unfold stackAud
  rw [mapM_map_some Val.aud? (fun s => Val.aud (g s)) g (x :: xs) (fun s _ => rfl)]
  simp only [List.map_cons]
  rw [if_pos]
  rw [List.all_eq_true]
  intro r hr
  obtain ⟨s, hs, rfl⟩ := List.mem_map.mp hr
  have h1 := hall s (by simp [hs])
  have h2 := hall x (by simp)
  simp [h1, h2]

lemma stackVid_map {β σ : Type} (g : σ → List β) (L : Nat) (x : σ) (xs : List σ)
    (hall : ∀ s ∈ x :: xs, (g s).length = L) :
    stackVid ((x :: xs).map (fun s => Val.vid (g s))) =
      Except.ok ((x :: xs).map g) := by
  unfold stackVid
  rw [mapM_map_some Val.vid? (fun s => Val.vid (g s)) g (x :: xs) (fun s _ => rfl)]
  simp only [List.map_cons]
  rw [if_pos]
  rw [List.all_eq_true]
  intro r hr
  obtain ⟨s, hs, rfl⟩ := List.mem_map.mp hr
  have h1 := hall s (by simp [hs])
  have h2 := hall x (by simp)
  simp [h1, h2]

lemma stackTok_map {β σ : Type} (g : σ → List Int) (L : Nat) (x : σ) (xs : List σ)
    (hall : ∀ s ∈ x :: xs, (g s).length = L) :
    stackTok (β := β) ((x :: xs).map (fun s => Val.tok (g s))) =
      Except.ok ((x :: xs).map g) := by
  unfold stackTok
  rw [mapM_map_some Val.tok? (fun s => Val.tok (g s)) g (x :: xs) (fun s _ => rfl)]
  simp only [List.map_cons]
  rw [if_pos]
  rw [List.all_eq_true]
  intro r hr
  obtain ⟨s, hs, rfl⟩ := List.mem_map.mp hr
  have h1 := hall s (by simp [hs])
  have h2 := hall x (by simp)
  simp [h1, h2]

/-- The value triple the collate loop computes for one structured
sample. -/
def expectedTriple {β : Type} (hasAudio hasVideo : Bool) (zB : β) (padId : Int)
    (maxA maxV maxT : Nat) (s : MSample β) : Val β × Val β × Val β :=
  (if hasAudio then
      Val.aud (s.audio.getD [] ++ List.replicate (maxA - s.aLen) 0)
    else s.audioVal,
   if hasVideo then
      Val.vid (s.video.getD [] ++ List.replicate (maxV - s.vLen) zB)
    else s.videoVal,
   Val.tok (s.toks ++ List.replicate (maxT - s.toks.length) padId))

lemma padAudioVal_toRow {β : Type} (hasAudio : Bool) (maxA : Nat) (s : MSample β)
    (hA : hasAudio = true → s.audio.isSome ∧ s.aLen ≤ maxA) :
    padAudioVal hasAudio maxA s.audioVal s.audioLenVal =
      Except.ok (if hasAudio then
          Val.aud (s.audio.getD [] ++ List.replicate (maxA - s.aLen) 0)
        else s.audioVal) := by
  cases hasAudio with
  | false => simp [padAudioVal]
  | true =>
    obtain ⟨hsome, hle⟩ := hA rfl
    obtain ⟨xs, hxs⟩ := Option.isSome_iff_exists.mp hsome
    have haL : s.aLen = xs.length := by simp [MSample.aLen, hxs]
    simp only [padAudioVal, MSample.audioVal, MSample.audioLenVal, hxs, Val.item?,
      if_true, Option.getD_some, haL]
    by_cases hlt : xs.length < maxA
    · rw [if_pos hlt]
    · rw [if_neg hlt]
      have heq : maxA - xs.length = 0 := by omega
      simp [heq]

lemma padVideoVal_toRow {β : Type} (hasVideo : Bool) (zB : β) (maxV : Nat)
    (s : MSample β)
    (hV : hasVideo = true → s.video.isSome ∧ s.vLen ≤ maxV) :
    padVideoVal hasVideo zB maxV s.videoVal s.videoLenVal =
      Except.ok (if hasVideo then
          Val.vid (s.video.getD [] ++ List.replicate (maxV - s.vLen) zB)
        else s.videoVal) := by
  cases hasVideo with
  | false => simp [padVideoVal]
  | true =>
    obtain ⟨hsome, hle⟩ := hV rfl
    obtain ⟨xs, hxs⟩ := Option.isSome_iff_exists.mp hsome
    have hvL : s.vLen = xs.length := by simp [MSample.vLen, hxs]
    simp only [padVideoVal, MSample.videoVal, MSample.videoLenVal, hxs, Val.item?,
      if_true, Option.getD_some, hvL]
    by_cases hlt : xs.length < maxV
    · rw [if_pos hlt]
    · rw [if_neg hlt]
      have heq : maxV - xs.length = 0 := by omega
      simp [heq]

lemma padTokensVal_toRow {β : Type} (padId : Int) (maxT : Nat) (s : MSample β)
    (hT : s.toks.length ≤ maxT) :
    padTokensVal (β := β) padId maxT (Val.tok s.toks) (Val.nat s.toks.length) =
      Except.ok (Val.tok (s.toks ++ List.replicate (maxT - s.toks.length) padId)) := by
  simp only [padTokensVal, Val.item?]
  by_cases hlt : s.toks.length < maxT
  · rw [if_pos hlt]
  · rw [if_neg hlt]
    have heq : maxT - s.toks.length = 0 := by omega
    simp [heq]

lemma processRow_toRow {β : Type} (hasAudio hasVideo : Bool) (zB : β) (padId : Int)
    (maxA maxV maxT : Nat) (s : MSample β)
    (hA : hasAudio = true → s.audio.isSome ∧ s.aLen ≤ maxA)
    (hV : hasVideo = true → s.video.isSome ∧ s.vLen ≤ maxV)
    (hT : s.toks.length ≤ maxT) :
    processRow hasAudio hasVideo zB padId maxA maxV maxT s.toRow =
      Except.ok (expectedTriple hasAudio hasVideo zB padId maxA maxV maxT s) := by
  have hau := padAudioVal_toRow hasAudio maxA s hA
  have hvi := padVideoVal_toRow hasVideo zB maxV s hV
  have hto := padTokensVal_toRow padId maxT s hT
  rcases hsid : s.sid with _ | n <;>
    simp only [MSample.toRow, MSample.sidTail, hsid, List.cons_append, List.nil_append,
      processRow, hau, hvi, hto, exceptBind_ok, expectedTriple]

lemma mapM_processRow {β : Type} (hasAudio hasVideo : Bool) (zB : β) (padId : Int)
    (maxA maxV maxT : Nat) :
    ∀ samples : List (MSample β),
      (∀ s ∈ samples,
        (hasAudio = true → s.audio.isSome ∧ s.aLen ≤ maxA) ∧
        (hasVideo = true → s.video.isSome ∧ s.vLen ≤ maxV) ∧
        s.toks.length ≤ maxT) →
      (samples.map MSample.toRow).mapM
          (processRow hasAudio hasVideo zB padId maxA maxV maxT) =
        Except.ok (samples.map (expectedTriple hasAudio hasVideo zB padId maxA maxV maxT)) := by
  intro samples
  induction samples with
  | nil => intro _; rfl
  | cons x xs ih =>
    intro hall
    obtain ⟨h1, h2, h3⟩ := hall x (by simp)
    simp only [List.map_cons, List.mapM_cons,
      processRow_toRow hasAudio hasVideo zB padId maxA maxV maxT x h1 h2 h3,
      ih (fun s hs => hall s (by simp [hs])), exceptBind_ok, exceptPure_eq_ok]

/-- `pyZip` of a structured batch: the six leading columns, followed by
the sample-id column exactly when every sample carries a sample id. -/
lemma pyZip_structured {β : Type} (s0 : MSample β) (rest : List (MSample β)) :
    pyZip ((s0 :: rest).map MSample.toRow) =
      [(s0 :: rest).map MSample.audioVal,
       (s0 :: rest).map MSample.audioLenVal,
       (s0 :: rest).map MSample.videoVal,
       (s0 :: rest).map MSample.videoLenVal,
       (s0 :: rest).map (fun s => Val.tok s.toks),
       (s0 :: rest).map (fun s => Val.nat s.toks.length)] ++
      (if (s0 :: rest).all (fun s => s.sid.isSome)
        then [(s0 :: rest).map (fun s => Val.nat (s.sid.getD 0))]
        else []) := by
  have hne : (s0 :: rest) ≠ [] := by simp
  have hrow : ∀ s : MSample β, MSample.toRow s =
      s.audioVal :: s.audioLenVal :: s.videoVal :: s.videoLenVal ::
        Val.tok s.toks :: Val.nat s.toks.length :: s.sidTail := by
    intro s; simp [MSample.toRow]
  rw [List.map_congr_left (fun s _ => hrow s)]
  rw [pyZip_map_cons _ hne]
  rw [pyZip_map_cons _ hne]
  rw [pyZip_map_cons _ hne]
  rw [pyZip_map_cons _ hne]
  rw [pyZip_map_cons _ hne]
  rw [pyZip_map_cons _ hne]
  by_cases hall : (s0 :: rest).all (fun s => s.sid.isSome)
  · have hsid : ∀ s ∈ (s0 :: rest), MSample.sidTail s =
        Val.nat (s.sid.getD 0) :: ([] : List (Val β)) := by
      intro s hs
      have := List.all_eq_true.mp hall s hs
      obtain ⟨n, hn⟩ := Option.isSome_iff_exists.mp this
      simp [MSample.sidTail, hn]
    rw [List.map_congr_left hsid, pyZip_map_cons _ hne]
    have hz : pyZip ((s0 :: rest).map (fun _ => ([] : List (Val β)))) = [] := by
      apply pyZip_nil_of_mem_nil
      simp
    rw [hz, if_pos hall]
    simp
  · have hex : ∃ s ∈ (s0 :: rest), s.sid = Option.none := by
      by_contra hcon
      push_neg at hcon
      apply hall
      rw [List.all_eq_true]
      intro s hs
      rcases h : s.sid with _ | n
      · exact absurd h (hcon s hs)
      · simp
    obtain ⟨s, hs, hnone⟩ := hex
    have hz : pyZip ((s0 :: rest).map MSample.sidTail) = [] := by
      apply pyZip_nil_of_mem_nil
      exact List.mem_map.mpr ⟨s, hs, by simp [MSample.sidTail, hnone]⟩
    rw [hz, if_neg hall]
    simp

lemma exceptBind_error {γ δ : Type} (e : String) (f : γ → Except String δ) :
    (Except.error e : Except String γ) >>= f = Except.error e := rfl

/-- Full computation of the collate body on a structured batch whose
modal presence is uniform whenever the first sample has the
modality. -/
lemma collateCore_structured {β : Type} (zB : β) (padId : Int)
    (s0 : MSample β) (rest : List (MSample β))
    (hA : s0.audio.isSome = true → ∀ s ∈ s0 :: rest, s.audio.isSome = true)
    (hV : s0.video.isSome = true → ∀ s ∈ s0 :: rest, s.video.isSome = true)
    (sampleIds : Option (List (Val β))) (sids : Option (List Nat))
    (hS : sampleIds = Option.none ∧ sids = Option.none ∨
      ∃ col ns, sampleIds = some col ∧ tensorIds col = Except.ok ns ∧ sids = some ns) :
    collateCore zB padId ((s0 :: rest).map MSample.toRow)
        ((s0 :: rest).map MSample.audioLenVal)
        ((s0 :: rest).map MSample.videoLenVal)
        ((s0 :: rest).map (fun s => Val.nat s.toks.length))
        sampleIds =
      Except.ok
        { audio_signal :=
            if s0.audio.isSome then
              some ((s0 :: rest).map (fun s => s.audio.getD [] ++
                List.replicate (pymax ((s0 :: rest).map MSample.aLen) - s.aLen) 0))
            else Option.none
          audio_lengths :=
            if s0.audio.isSome then some ((s0 :: rest).map MSample.aLen)
            else Option.none
          video_signal :=
            if s0.video.isSome then
              some ((s0 :: rest).map (fun s => s.video.getD [] ++
                List.replicate (pymax ((s0 :: rest).map MSample.vLen) - s.vLen) zB))
            else Option.none
          video_lengths :=
            if s0.video.isSome then some ((s0 :: rest).map MSample.vLen)
            else Option.none
          tokens := (s0 :: rest).map (fun s => s.toks ++
            List.replicate
              (pymax ((s0 :: rest).map (fun u => u.toks.length)) - s.toks.length) padId)
          tokens_lengths := (s0 :: rest).map (fun s => s.toks.length)
          sample_ids := sids } := by
  have hmaxT : maxItem (β := β) ((s0 :: rest).map (fun s => Val.nat s.toks.length)) =
      Except.ok (pymax ((s0 :: rest).map (fun u => u.toks.length))) :=
    maxItem_nat_col _ s0 rest
  have hlensT : stackLens (β := β) ((s0 :: rest).map (fun s => Val.nat s.toks.length)) =
      Except.ok ((s0 :: rest).map (fun s => s.toks.length)) :=
    stackLens_nat_col _ s0 rest
  have htLe : ∀ s ∈ s0 :: rest,
      s.toks.length ≤ pymax ((s0 :: rest).map (fun u => u.toks.length)) :=
    fun s hs => le_pymax_of_mem (List.mem_map_of_mem _ hs)
  unfold collateCore
  simp only [List.head?_map, List.head?_cons, Option.map_some', exceptBind_ok]
  rcases ha0 : s0.audio with _ | axs <;> rcases hv0 : s0.video with _ | vxs
  -- case 1: no audio, no video
  · have hna : isNotNone (MSample.audioLenVal s0) = false := by
      simp [isNotNone, MSample.audioLenVal, ha0]
    have hnv : isNotNone (MSample.videoLenVal s0) = false := by
      simp [isNotNone, MSample.videoLenVal, hv0]
    have hrows := mapM_processRow false false zB padId 0 0
      (pymax ((s0 :: rest).map (fun u => u.toks.length))) (s0 :: rest)
      (fun s hs => ⟨fun h => by simp at h, fun h => by simp at h, htLe s hs⟩)
    have htr3 : ((s0 :: rest).map (expectedTriple false false zB padId 0 0
        (pymax ((s0 :: rest).map (fun u => u.toks.length))))).map (fun p => p.2.2) =
        (s0 :: rest).map (fun s => Val.tok (s.toks ++
          List.replicate
            (pymax ((s0 :: rest).map (fun u => u.toks.length)) - s.toks.length) padId)) := by
      rw [List.map_map]
      apply List.map_congr_left
      intro s _
      simp [expectedTriple]
    have hstT : stackTok (β := β) ((s0 :: rest).map (fun s => Val.tok (s.toks ++
        List.replicate
          (pymax ((s0 :: rest).map (fun u => u.toks.length)) - s.toks.length) padId))) =
        Except.ok ((s0 :: rest).map (fun s => s.toks ++
          List.replicate
            (pymax ((s0 :: rest).map (fun u => u.toks.length)) - s.toks.length) padId)) := by
      apply stackTok_map _ (pymax ((s0 :: rest).map (fun u => u.toks.length)))
      intro s hs
      have h1 := htLe s hs
      simp only [List.length_append, List.length_replicate]
      omega
    simp only [hna, hnv, Bool.false_eq_true, if_false, exceptBind_ok]
    rw [hmaxT, exceptBind_ok, hrows, exceptBind_ok, htr3, hstT, exceptBind_ok,
      hlensT, exceptBind_ok]
    rcases hS with ⟨rfl, rfl⟩ | ⟨col, ns, rfl, hti, rfl⟩
    · simp [exceptBind_ok, ha0, hv0]
    · simp [hti, exceptBind_ok, ha0, hv0]
  -- case 2: no audio, video present
  · have hna : isNotNone (MSample.audioLenVal s0) = false := by
      simp [isNotNone, MSample.audioLenVal, ha0]
    have hnv : isNotNone (MSample.videoLenVal s0) = true := by
      simp [isNotNone, MSample.videoLenVal, hv0]
    have hVall : ∀ s ∈ s0 :: rest, s.video.isSome = true := hV (by simp [hv0])
    have hvcol : (s0 :: rest).map MSample.videoLenVal =
        (s0 :: rest).map (fun s => Val.nat s.vLen) :=
      List.map_congr_left (fun s hs => by
        obtain ⟨ys, hys⟩ := Option.isSome_iff_exists.mp (hVall s hs)
        simp [MSample.videoLenVal, MSample.vLen, hys])
    have hmaxV : maxItem ((s0 :: rest).map MSample.videoLenVal) =
        Except.ok (pymax ((s0 :: rest).map MSample.vLen)) := by
      rw [hvcol]; exact maxItem_nat_col MSample.vLen s0 rest
    have hlensV : stackLens ((s0 :: rest).map MSample.videoLenVal) =
        Except.ok ((s0 :: rest).map MSample.vLen) := by
      rw [hvcol]; exact stackLens_nat_col MSample.vLen s0 rest
    have hvLe : ∀ s ∈ s0 :: rest, s.vLen ≤ pymax ((s0 :: rest).map MSample.vLen) :=
      fun s hs => le_pymax_of_mem (List.mem_map_of_mem _ hs)
    have hrows := mapM_processRow false true zB padId 0
      (pymax ((s0 :: rest).map MSample.vLen))
      (pymax ((s0 :: rest).map (fun u => u.toks.length))) (s0 :: rest)
      (fun s hs => ⟨fun h => by simp at h,
        fun _ => ⟨hVall s hs, hvLe s hs⟩, htLe s hs⟩)
    have htr2 : ((s0 :: rest).map (expectedTriple false true zB padId 0
        (pymax ((s0 :: rest).map MSample.vLen))
        (pymax ((s0 :: rest).map (fun u => u.toks.length))))).map (fun p => p.2.1) =
        (s0 :: rest).map (fun s => Val.vid (s.video.getD [] ++
          List.replicate (pymax ((s0 :: rest).map MSample.vLen) - s.vLen) zB)) := by
      rw [List.map_map]
      apply List.map_congr_left
      intro s _
      simp [expectedTriple]
    have hstV : stackVid ((s0 :: rest).map (fun s => Val.vid (s.video.getD [] ++
        List.replicate (pymax ((s0 :: rest).map MSample.vLen) - s.vLen) zB))) =
        Except.ok ((s0 :: rest).map (fun s => s.video.getD [] ++
          List.replicate (pymax ((s0 :: rest).map MSample.vLen) - s.vLen) zB)) := by
      apply stackVid_map _ (pymax ((s0 :: rest).map MSample.vLen))
      intro s hs
      have h1 := hvLe s hs
      have h2 : (s.video.getD []).length = s.vLen := rfl
      simp only [List.length_append, List.length_replicate]
      omega
    have htr3 : ((s0 :: rest).map (expectedTriple false true zB padId 0
        (pymax ((s0 :: rest).map MSample.vLen))
        (pymax ((s0 :: rest).map (fun u => u.toks.length))))).map (fun p => p.2.2) =
        (s0 :: rest).map (fun s => Val.tok (s.toks ++
          List.replicate
            (pymax ((s0 :: rest).map (fun u => u.toks.length)) - s.toks.length) padId)) := by
      rw [List.map_map]
      apply List.map_congr_left
      intro s _
      simp [expectedTriple]
    have hstT : stackTok (β := β) ((s0 :: rest).map (fun s => Val.tok (s.toks ++
        List.replicate
          (pymax ((s0 :: rest).map (fun u => u.toks.length)) - s.toks.length) padId))) =
        Except.ok ((s0 :: rest).map (fun s => s.toks ++
          List.replicate
            (pymax ((s0 :: rest).map (fun u => u.toks.length)) - s.toks.length) padId)) := by
      apply stackTok_map _ (pymax ((s0 :: rest).map (fun u => u.toks.length)))
      intro s hs
      have h1 := htLe s hs
      simp only [List.length_append, List.length_replicate]
      omega
    simp only [hna, hnv, Bool.false_eq_true, if_false, eq_self_iff_true, if_true,
      hmaxV, hmaxT, hrows, htr2, hstV, hlensV, htr3, hstT, hlensT, exceptBind_ok]
    rcases hS with ⟨rfl, rfl⟩ | ⟨col, ns, rfl, hti, rfl⟩
    · simp [exceptBind_ok, ha0, hv0]
    · simp [hti, exceptBind_ok, ha0, hv0]
  -- case 3: audio present, no video
  · have hna : isNotNone (MSample.audioLenVal s0) = true := by
      simp [isNotNone, MSample.audioLenVal, ha0]
    have hnv : isNotNone (MSample.videoLenVal s0) = false := by
      simp [isNotNone, MSample.videoLenVal, hv0]
    have hAall : ∀ s ∈ s0 :: rest, s.audio.isSome = true := hA (by simp [ha0])
    have hacol : (s0 :: rest).map MSample.audioLenVal =
        (s0 :: rest).map (fun s => Val.nat s.aLen) :=
      List.map_congr_left (fun s hs => by
        obtain ⟨ys, hys⟩ := Option.isSome_iff_exists.mp (hAall s hs)
        simp [MSample.audioLenVal, MSample.aLen, hys])
    have hmaxA : maxItem ((s0 :: rest).map MSample.audioLenVal) =
        Except.ok (pymax ((s0 :: rest).map MSample.aLen)) := by
      rw [hacol]; exact maxItem_nat_col MSample.aLen s0 rest
    have hlensA : stackLens ((s0 :: rest).map MSample.audioLenVal) =
        Except.ok ((s0 :: rest).map MSample.aLen) := by
      rw [hacol]; exact stackLens_nat_col MSample.aLen s0 rest
    have haLe : ∀ s ∈ s0 :: rest, s.aLen ≤ pymax ((s0 :: rest).map MSample.aLen) :=
      fun s hs => le_pymax_of_mem (List.mem_map_of_mem _ hs)
    have hrows := mapM_processRow true false zB padId
      (pymax ((s0 :: rest).map MSample.aLen)) 0
      (pymax ((s0 :: rest).map (fun u => u.toks.length))) (s0 :: rest)
      (fun s hs => ⟨fun _ => ⟨hAall s hs, haLe s hs⟩,
        fun h => by simp at h, htLe s hs⟩)
    have htr1 : ((s0 :: rest).map (expectedTriple true false zB padId
        (pymax ((s0 :: rest).map MSample.aLen)) 0
        (pymax ((s0 :: rest).map (fun u => u.toks.length))))).map (fun p => p.1) =
        (s0 :: rest).map (fun s => Val.aud (s.audio.getD [] ++
          List.replicate (pymax ((s0 :: rest).map MSample.aLen) - s.aLen) 0)) := by
      rw [List.map_map]
      apply List.map_congr_left
      intro s _
      simp [expectedTriple]
    have hstA : stackAud (β := β) ((s0 :: rest).map (fun s => Val.aud (s.audio.getD [] ++
        List.replicate (pymax ((s0 :: rest).map MSample.aLen) - s.aLen) 0))) =
        Except.ok ((s0 :: rest).map (fun s => s.audio.getD [] ++
          List.replicate (pymax ((s0 :: rest).map MSample.aLen) - s.aLen) 0)) := by
      apply stackAud_map _ (pymax ((s0 :: rest).map MSample.aLen))
      intro s hs
      have h1 := haLe s hs
      have h2 : (s.audio.getD []).length = s.aLen := rfl
      simp only [List.length_append, List.length_replicate]
      omega
    have htr3 : ((s0 :: rest).map (expectedTriple true false zB padId
        (pymax ((s0 :: rest).map MSample.aLen)) 0
        (pymax ((s0 :: rest).map (fun u => u.toks.length))))).map (fun p => p.2.2) =
        (s0 :: rest).map (fun s => Val.tok (s.toks ++
          List.replicate
            (pymax ((s0 :: rest).map (fun u => u.toks.length)) - s.toks.length) padId)) := by
      rw [List.map_map]
      apply List.map_congr_left
      intro s _
      simp [expectedTriple]
    have hstT : stackTok (β := β) ((s0 :: rest).map (fun s => Val.tok (s.toks ++
        List.replicate
          (pymax ((s0 :: rest).map (fun u => u.toks.length)) - s.toks.length) padId))) =
        Except.ok ((s0 :: rest).map (fun s => s.toks ++
          List.replicate
            (pymax ((s0 :: rest).map (fun u => u.toks.length)) - s.toks.length) padId)) := by
      apply stackTok_map _ (pymax ((s0 :: rest).map (fun u => u.toks.length)))
      intro s hs
      have h1 := htLe s hs
      simp only [List.length_append, List.length_replicate]
      omega
    simp only [hna, hnv, Bool.false_eq_true, if_false, eq_self_iff_true, if_true,
      hmaxA, hmaxT, hrows, htr1, hstA, hlensA, htr3, hstT, hlensT, exceptBind_ok]
    rcases hS with ⟨rfl, rfl⟩ | ⟨col, ns, rfl, hti, rfl⟩
    · simp [exceptBind_ok, ha0, hv0]
    · simp [hti, exceptBind_ok, ha0, hv0]
  -- case 4: audio and video present
  · have hna : isNotNone (MSample.audioLenVal s0) = true := by
      simp [isNotNone, MSample.audioLenVal, ha0]
    have hnv : isNotNone (MSample.videoLenVal s0) = true := by
      simp [isNotNone, MSample.videoLenVal, hv0]
    have hAall : ∀ s ∈ s0 :: rest, s.audio.isSome = true := hA (by simp [ha0])
    have hVall : ∀ s ∈ s0 :: rest, s.video.isSome = true := hV (by simp [hv0])
    have hacol : (s0 :: rest).map MSample.audioLenVal =
        (s0 :: rest).map (fun s => Val.nat s.aLen) :=
      List.map_congr_left (fun s hs => by
        obtain ⟨ys, hys⟩ := Option.isSome_iff_exists.mp (hAall s hs)
        simp [MSample.audioLenVal, MSample.aLen, hys])
    have hvcol : (s0 :: rest).map MSample.videoLenVal =
        (s0 :: rest).map (fun s => Val.nat s.vLen) :=
      List.map_congr_left (fun s hs => by
        obtain ⟨ys, hys⟩ := Option.isSome_iff_exists.mp (hVall s hs)
        simp [MSample.videoLenVal, MSample.vLen, hys])
    have hmaxA : maxItem ((s0 :: rest).map MSample.audioLenVal) =
        Except.ok (pymax ((s0 :: rest).map MSample.aLen)) := by
      rw [hacol]; exact maxItem_nat_col MSample.aLen s0 rest
    have hlensA : stackLens ((s0 :: rest).map MSample.audioLenVal) =
        Except.ok ((s0 :: rest).map MSample.aLen) := by
      rw [hacol]; exact stackLens_nat_col MSample.aLen s0 rest
    have hmaxV : maxItem ((s0 :: rest).map MSample.videoLenVal) =
        Except.ok (pymax ((s0 :: rest).map MSample.vLen)) := by
      rw [hvcol]; exact maxItem_nat_col MSample.vLen s0 rest
    have hlensV : stackLens ((s0 :: rest).map MSample.videoLenVal) =
        Except.ok ((s0 :: rest).map MSample.vLen) := by
      rw [hvcol]; exact stackLens_nat_col MSample.vLen s0 rest
    have haLe : ∀ s ∈ s0 :: rest, s.aLen ≤ pymax ((s0 :: rest).map MSample.aLen) :=
      fun s hs => le_pymax_of_mem (List.mem_map_of_mem _ hs)
    have hvLe : ∀ s ∈ s0 :: rest, s.vLen ≤ pymax ((s0 :: rest).map MSample.vLen) :=
      fun s hs => le_pymax_of_mem (List.mem_map_of_mem _ hs)
    have hrows := mapM_processRow true true zB padId
      (pymax ((s0 :: rest).map MSample.aLen))
      (pymax ((s0 :: rest).map MSample.vLen))
      (pymax ((s0 :: rest).map (fun u => u.toks.length))) (s0 :: rest)
      (fun s hs => ⟨fun _ => ⟨hAall s hs, haLe s hs⟩,
        fun _ => ⟨hVall s hs, hvLe s hs⟩, htLe s hs⟩)
    have htr1 : ((s0 :: rest).map (expectedTriple true true zB padId
        (pymax ((s0 :: rest).map MSample.aLen))
        (pymax ((s0 :: rest).map MSample.vLen))
        (pymax ((s0 :: rest).map (fun u => u.toks.length))))).map (fun p => p.1) =
        (s0 :: rest).map (fun s => Val.aud (s.audio.getD [] ++
          List.replicate (pymax ((s0 :: rest).map MSample.aLen) - s.aLen) 0)) := by
      rw [List.map_map]
      apply List.map_congr_left
      intro s _
      simp [expectedTriple]
    have hstA : stackAud (β := β) ((s0 :: rest).map (fun s => Val.aud (s.audio.getD [] ++
        List.replicate (pymax ((s0 :: rest).map MSample.aLen) - s.aLen) 0))) =
        Except.ok ((s0 :: rest).map (fun s => s.audio.getD [] ++
          List.replicate (pymax ((s0 :: rest).map MSample.aLen) - s.aLen) 0)) := by
      apply stackAud_map _ (pymax ((s0 :: rest).map MSample.aLen))
      intro s hs
      have h1 := haLe s hs
      have h2 : (s.audio.getD []).length = s.aLen := rfl
      simp only [List.length_append, List.length_replicate]
      omega
    have htr2 : ((s0 :: rest).map (expectedTriple true true zB padId
        (pymax ((s0 :: rest).map MSample.aLen))
        (pymax ((s0 :: rest).map MSample.vLen))
        (pymax ((s0 :: rest).map (fun u => u.toks.length))))).map (fun p => p.2.1) =
        (s0 :: rest).map (fun s => Val.vid (s.video.getD [] ++
          List.replicate (pymax ((s0 :: rest).map MSample.vLen) - s.vLen) zB)) := by
      rw [List.map_map]
      apply List.map_congr_left
      intro s _
      simp [expectedTriple]
    have hstV : stackVid ((s0 :: rest).map (fun s => Val.vid (s.video.getD [] ++
        List.replicate (pymax ((s0 :: rest).map MSample.vLen) - s.vLen) zB))) =
        Except.ok ((s0 :: rest).map (fun s => s.video.getD [] ++
          List.replicate (pymax ((s0 :: rest).map MSample.vLen) - s.vLen) zB)) := by
      apply stackVid_map _ (pymax ((s0 :: rest).map MSample.vLen))
      intro s hs
      have h1 := hvLe s hs
      have h2 : (s.video.getD []).length = s.vLen := rfl
      simp only [List.length_append, List.length_replicate]
      omega
    have htr3 : ((s0 :: rest).map (expectedTriple true true zB padId
        (pymax ((s0 :: rest).map MSample.aLen))
        (pymax ((s0 :: rest).map MSample.vLen))
        (pymax ((s0 :: rest).map (fun u => u.toks.length))))).map (fun p => p.2.2) =
        (s0 :: rest).map (fun s => Val.tok (s.toks ++
          List.replicate
            (pymax ((s0 :: rest).map (fun u => u.toks.length)) - s.toks.length) padId)) := by
      rw [List.map_map]
      apply List.map_congr_left
      intro s _
      simp [expectedTriple]
    have hstT : stackTok (β := β) ((s0 :: rest).map (fun s => Val.tok (s.toks ++
        List.replicate
          (pymax ((s0 :: rest).map (fun u => u.toks.length)) - s.toks.length) padId))) =
        Except.ok ((s0 :: rest).map (fun s => s.toks ++
          List.replicate
            (pymax ((s0 :: rest).map (fun u => u.toks.length)) - s.toks.length) padId)) := by
      apply stackTok_map _ (pymax ((s0 :: rest).map (fun u => u.toks.length)))
      intro s hs
      have h1 := htLe s hs
      simp only [List.length_append, List.length_replicate]
      omega
    simp only [hna, hnv, Bool.false_eq_true, if_false, eq_self_iff_true, if_true,
      hmaxA, hmaxV, hmaxT, hrows, htr1, hstA, hlensA, htr2, hstV, hlensV,
      htr3, hstT, hlensT, exceptBind_ok]
    rcases hS with ⟨rfl, rfl⟩ | ⟨col, ns, rfl, hti, rfl⟩
    · simp [exceptBind_ok, ha0, hv0]
    · simp [hti, exceptBind_ok, ha0, hv0]

/-- Full computation of `_audio_video_speech_collate_fn` on a non-empty
structured batch: modal presence is decided by the first sample and
must then hold batch-wide; the sample-id column survives the
`zip`-truncation exactly when every sample carries one. -/
lemma collate_structured {β : Type} (zB : β) (padId : Int)
    (s0 : MSample β) (rest : List (MSample β))
    (hA : s0.audio.isSome = true → ∀ s ∈ s0 :: rest, s.audio.isSome = true)
    (hV : s0.video.isSome = true → ∀ s ∈ s0 :: rest, s.video.isSome = true) :
    audioVideoSpeechCollate zB ((s0 :: rest).map MSample.toRow) padId =
      Except.ok
        { audio_signal :=
            if s0.audio.isSome then
              some ((s0 :: rest).map (fun s => s.audio.getD [] ++
                List.replicate (pymax ((s0 :: rest).map MSample.aLen) - s.aLen) 0))
            else Option.none
          audio_lengths :=
            if s0.audio.isSome then some ((s0 :: rest).map MSample.aLen)
            else Option.none
          video_signal :=
            if s0.video.isSome then
              some ((s0 :: rest).map (fun s => s.video.getD [] ++
                List.replicate (pymax ((s0 :: rest).map MSample.vLen) - s.vLen) zB))
            else Option.none
          video_lengths :=
            if s0.video.isSome then some ((s0 :: rest).map MSample.vLen)
            else Option.none
          tokens := (s0 :: rest).map (fun s => s.toks ++
            List.replicate
              (pymax ((s0 :: rest).map (fun u => u.toks.length)) - s.toks.length) padId)
          tokens_lengths := (s0 :: rest).map (fun s => s.toks.length)
          sample_ids :=
            if (s0 :: rest).all (fun s => s.sid.isSome)
            then some ((s0 :: rest).map (fun s => s.sid.getD 0))
            else Option.none } := by
  unfold audioVideoSpeechCollate
  rw [pyZip_structured]
  by_cases hsid : (s0 :: rest).all (fun s => s.sid.isSome)
  · rw [if_pos hsid, if_pos hsid]
    simp only [List.cons_append, List.nil_append]
    exact collateCore_structured zB padId s0 rest hA hV _ _
      (Or.inr ⟨(s0 :: rest).map (fun s => Val.nat (s.sid.getD 0)),
        (s0 :: rest).map (fun s => s.sid.getD 0), rfl,
        tensorIds_nat_col (fun s => s.sid.getD 0) (s0 :: rest), rfl⟩)
  · rw [if_neg hsid, if_neg hsid]
    simp only [List.append_nil]
    exact collateCore_structured zB padId s0 rest hA hV _ _ (Or.inl ⟨rfl, rfl⟩)

lemma bind_ne_error {γ δ : Type} (x : Except String γ) (f : γ → Except String δ)
    (msg : String) (hx : x ≠ Except.error msg)
    (hf : ∀ a, f a ≠ Except.error msg) : (x >>= f) ≠ Except.error msg := by
  cases x with
  | error e =>
    rw [exceptBind_error]
    intro h
    injection h with h1
    exact hx (by rw [h1])
  | ok a => rw [exceptBind_ok]; exact hf a

lemma maxItem_ne_arity {β : Type} (col : List (Val β)) :
    maxItem col ≠ Except.error collateArityError := by
  unfold maxItem
  split
  · intro h; injection h with h1; simp [collateArityError] at h1
  · split
    · intro h; injection h with h1; simp [collateArityError] at h1
    · intro h; cases h

lemma padAudioVal_ne_arity {β : Type} (hasAudio : Bool) (maxA : Nat) (a al : Val β) :
    padAudioVal hasAudio maxA a al ≠ Except.error collateArityError := by
  unfold padAudioVal
  split
  · split
    · intro h; injection h with h1; simp [collateArityError] at h1
    · split
      · split
        · intro h; cases h
        · intro h; injection h with h1; simp [collateArityError] at h1
      · intro h; cases h
  · intro h; cases h

lemma padVideoVal_ne_arity {β : Type} (hasVideo : Bool) (zB : β) (maxV : Nat)
    (v vl : Val β) :
    padVideoVal hasVideo zB maxV v vl ≠ Except.error collateArityError := by
  unfold padVideoVal
  split
  · split
    · intro h; injection h with h1; simp [collateArityError] at h1
    · split
      · split
        · intro h; cases h
        · intro h; injection h with h1; simp [collateArityError] at h1
      · intro h; cases h
  · intro h; cases h

lemma padTokensVal_ne_arity {β : Type} (padId : Int) (maxT : Nat) (t tl : Val β) :
    padTokensVal padId maxT t tl ≠ Except.error collateArityError := by
  unfold padTokensVal
  split
  · intro h; injection h with h1; simp [collateArityError] at h1
  · split
    · split
      · intro h; cases h
      · intro h; injection h with h1; simp [collateArityError] at h1
    · intro h; cases h

lemma processRow_ne_arity {β : Type} (hasAudio hasVideo : Bool) (zB : β)
    (padId : Int) (maxA maxV maxT : Nat) (b : List (Val β)) :
    processRow hasAudio hasVideo zB padId maxA maxV maxT b ≠
      Except.error collateArityError := by
  unfold processRow
  split
  · apply bind_ne_error _ _ _ (padAudioVal_ne_arity _ _ _ _)
    intro pa
    apply bind_ne_error _ _ _ (padVideoVal_ne_arity _ _ _ _ _)
    intro pv
    apply bind_ne_error _ _ _ (padTokensVal_ne_arity _ _ _ _)
    intro pt
    intro h; cases h
  · apply bind_ne_error _ _ _ (padAudioVal_ne_arity _ _ _ _)
    intro pa
    apply bind_ne_error _ _ _ (padVideoVal_ne_arity _ _ _ _ _)
    intro pv
    apply bind_ne_error _ _ _ (padTokensVal_ne_arity _ _ _ _)
    intro pt
    intro h; cases h
  · intro h; injection h with h1; simp [collateArityError] at h1

lemma mapM_ne_error {γ δ : Type} (f : γ → Except String δ) (msg : String)
    (hf : ∀ a, f a ≠ Except.error msg) :
    ∀ l : List γ, l.mapM f ≠ Except.error msg := by
  intro l
  induction l with
  | nil => intro h; cases h
  | cons a tl ih =>
    rw [List.mapM_cons]
    apply bind_ne_error _ _ _ (hf a)
    intro x
    apply bind_ne_error _ _ _ ih
    intro xs
    intro h; cases h

lemma stackAud_ne_arity {β : Type} (vs : List (Val β)) :
    stackAud vs ≠ Except.error collateArityError := by
  unfold stackAud
  split
  · intro h; injection h with h1; simp [collateArityError] at h1
  · split
    · intro h; injection h with h1; simp [collateArityError] at h1
    · split
      · intro h; cases h
      · intro h; injection h with h1; simp [collateArityError] at h1

lemma stackVid_ne_arity {β : Type} (vs : List (Val β)) :
    stackVid vs ≠ Except.error collateArityError := by
  unfold stackVid
  split
  · intro h; injection h with h1; simp [collateArityError] at h1
  · split
    · intro h; injection h with h1; simp [collateArityError] at h1
    · split
      · intro h; cases h
      · intro h; injection h with h1; simp [collateArityError] at h1

lemma stackTok_ne_arity {β : Type} (vs : List (Val β)) :
    stackTok vs ≠ Except.error collateArityError := by
  unfold stackTok
  split
  · intro h; injection h with h1; simp [collateArityError] at h1
  · split
    · intro h; injection h with h1; simp [collateArityError] at h1
    · split
      · intro h; cases h
      · intro h; injection h with h1; simp [collateArityError] at h1

lemma stackLens_ne_arity {β : Type} (col : List (Val β)) :
    stackLens col ≠ Except.error collateArityError := by
  unfold stackLens
  split
  · intro h; injection h with h1; simp [collateArityError] at h1
  · split
    · intro h; injection h with h1; simp [collateArityError] at h1
    · intro h; cases h

lemma tensorIds_ne_arity {β : Type} (col : List (Val β)) :
    tensorIds col ≠ Except.error collateArityError := by
  unfold tensorIds
  split
  · intro h; injection h with h1; simp [collateArityError] at h1
  · intro h; cases h

/-- The collate body can fail, but never with the arity-validation
message: that error is raised only by the dispatch on the transposed
batch. -/
lemma collateCore_ne_arity {β : Type} (zB : β) (padId : Int)
    (batch : List (List (Val β))) (audioLens videoLens tokensLens : List (Val β))
    (sampleIds : Option (List (Val β))) :
    collateCore zB padId batch audioLens videoLens tokensLens sampleIds ≠
      Except.error collateArityError := by
  unfold collateCore
  apply bind_ne_error
  · split
    · intro h; injection h with h1; simp [collateArityError] at h1
    · intro h; cases h
  intro v0a
  apply bind_ne_error
  · split
    · exact maxItem_ne_arity _
    · intro h; cases h
  intro maxA
  apply bind_ne_error
  · split
    · intro h; injection h with h1; simp [collateArityError] at h1
    · intro h; cases h
  intro v0v
  apply bind_ne_error
  · split
    · exact maxItem_ne_arity _
    · intro h; cases h
  intro maxV
  apply bind_ne_error _ _ _ (maxItem_ne_arity _)
  intro maxT
  apply bind_ne_error _ _ _ (mapM_ne_error _ _ (fun b => processRow_ne_arity _ _ _ _ _ _ _ b) _)
  intro triples
  apply bind_ne_error
  · split
    · apply bind_ne_error _ _ _ (stackAud_ne_arity _)
      intro rows
      apply bind_ne_error _ _ _ (stackLens_ne_arity _)
      intro ls
      intro h; cases h
    · intro h; cases h
  intro audioOut
  apply bind_ne_error
  · split
    · apply bind_ne_error _ _ _ (stackVid_ne_arity _)
      intro rows
      apply bind_ne_error _ _ _ (stackLens_ne_arity _)
      intro ls
      intro h; cases h
    · intro h; cases h
  intro videoOut
  apply bind_ne_error _ _ _ (stackTok_ne_arity _)
  intro toks
  apply bind_ne_error _ _ _ (stackLens_ne_arity _)
  intro tlens
  apply bind_ne_error
  · split
    · intro h; cases h
    · apply bind_ne_error _ _ _ (tensorIds_ne_arity _)
      intro ns
      intro h; cases h
  intro sids
  intro h; cases h

/-- C7: on a non-empty structured batch of 6- or 7-element sample
tuples whose length entries equal the leading dimensions of their
tensors (as `MSample.toRow` guarantees) and whose audio and video are
present throughout, the collate function succeeds; every audio row has
the batch's maximum audio length, every video row the maximum video
length, every token row the maximum token length, and the stacked
length tensors are returned alongside. -/
theorem collate_dims_match_batch_max {β : Type} (zB : β) (padId : Int)
    (s0 : MSample β) (rest : List (MSample β))
    (hA : ∀ s ∈ s0 :: rest, s.audio.isSome = true)
    (hV : ∀ s ∈ s0 :: rest, s.video.isSome = true) :
    ∃ A LA Vd LV T LT sids,
      audioVideoSpeechCollate zB ((s0 :: rest).map MSample.toRow) padId =
        Except.ok ⟨some A, some LA, some Vd, some LV, T, LT, sids⟩ ∧
      (∀ row ∈ A, row.length = pymax ((s0 :: rest).map MSample.aLen)) ∧
      (∀ row ∈ Vd, row.length = pymax ((s0 :: rest).map MSample.vLen)) ∧
      (∀ row ∈ T, row.length = pymax ((s0 :: rest).map (fun u => u.toks.length))) ∧
      LA = (s0 :: rest).map MSample.aLen ∧
      LV = (s0 :: rest).map MSample.vLen ∧
      LT = (s0 :: rest).map (fun u => u.toks.length) := by
  have h := collate_structured zB padId s0 rest (fun _ => hA) (fun _ => hV)
  have ha0 : s0.audio.isSome = true := hA s0 (by simp)
  have hv0 : s0.video.isSome = true := hV s0 (by simp)
  simp only [ha0, hv0, if_true] at h
  refine ⟨_, _, _, _, _, _, _, h, ?_, ?_, ?_, rfl, rfl, rfl⟩
  · intro row hrow
    obtain ⟨s, hs, rfl⟩ := List.mem_map.mp hrow
    have h1 : s.aLen ≤ pymax ((s0 :: rest).map MSample.aLen) :=
      le_pymax_of_mem (List.mem_map_of_mem _ hs)
    have h2 : (s.audio.getD []).length = s.aLen := rfl
    simp only [List.length_append, List.length_replicate]
    omega
  · intro row hrow
    obtain ⟨s, hs, rfl⟩ := List.mem_map.mp hrow
    have h1 : s.vLen ≤ pymax ((s0 :: rest).map MSample.vLen) :=
      le_pymax_of_mem (List.mem_map_of_mem _ hs)
    have h2 : (s.video.getD []).length = s.vLen := rfl
    simp only [List.length_append, List.length_replicate]
    omega
  · intro row hrow
    obtain ⟨s, hs, rfl⟩ := List.mem_map.mp hrow
    have h1 : s.toks.length ≤ pymax ((s0 :: rest).map (fun u => u.toks.length)) :=
      le_pymax_of_mem (List.mem_map_of_mem _ hs)
    simp only [List.length_append, List.length_replicate]
    omega

/-- Closed witness for `collate_dims_match_batch_max`: a two-sample
batch, one 6-tuple and one 7-tuple. -/
theorem collate_dims_match_batch_max_witness :
    (∀ s ∈ [(⟨some [1, 2], some [9], [3], Option.none⟩ : MSample Int),
        ⟨some [7], some [8, 9], [4, 5], some 42⟩], s.audio.isSome = true) ∧
    (∀ s ∈ [(⟨some [1, 2], some [9], [3], Option.none⟩ : MSample Int),
        ⟨some [7], some [8, 9], [4, 5], some 42⟩], s.video.isSome = true) ∧
    (∃ A LA Vd LV T LT sids,
      audioVideoSpeechCollate (0 : Int)
          (([(⟨some [1, 2], some [9], [3], Option.none⟩ : MSample Int),
            ⟨some [7], some [8, 9], [4, 5], some 42⟩]).map MSample.toRow) (-1) =
        Except.ok ⟨some A, some LA, some Vd, some LV, T, LT, sids⟩ ∧
      (∀ row ∈ A, row.length = pymax (([(⟨some [1, 2], some [9], [3], Option.none⟩ : MSample Int),
        ⟨some [7], some [8, 9], [4, 5], some 42⟩]).map MSample.aLen)) ∧
      (∀ row ∈ Vd, row.length = pymax (([(⟨some [1, 2], some [9], [3], Option.none⟩ : MSample Int),
        ⟨some [7], some [8, 9], [4, 5], some 42⟩]).map MSample.vLen)) ∧
      (∀ row ∈ T, row.length = pymax (([(⟨some [1, 2], some [9], [3], Option.none⟩ : MSample Int),
        ⟨some [7], some [8, 9], [4, 5], some 42⟩]).map (fun u => u.toks.length))) ∧
      LA = ([(⟨some [1, 2], some [9], [3], Option.none⟩ : MSample Int),
        ⟨some [7], some [8, 9], [4, 5], some 42⟩]).map MSample.aLen ∧
      LV = ([(⟨some [1, 2], some [9], [3], Option.none⟩ : MSample Int),
        ⟨some [7], some [8, 9], [4, 5], some 42⟩]).map MSample.vLen ∧
      LT = ([(⟨some [1, 2], some [9], [3], Option.none⟩ : MSample Int),
        ⟨some [7], some [8, 9], [4, 5], some 42⟩]).map (fun u => u.toks.length)) :=
  ⟨by decide, by decide,
    collate_dims_match_batch_max 0 (-1) ⟨some [1, 2], some [9], [3], Option.none⟩
      [⟨some [7], some [8, 9], [4, 5], some 42⟩] (by decide) (by decide)⟩

/-- C8: each row of the collated token tensor is the sample's original
token sequence followed by `max_token_len - token_len` copies of
`pad_id`; a row whose token length equals the maximum is unchanged. -/
theorem collate_token_rows_padded {β : Type} (zB : β) (padId : Int)
    (s0 : MSample β) (rest : List (MSample β))
    (hA : s0.audio.isSome = true → ∀ s ∈ s0 :: rest, s.audio.isSome = true)
    (hV : s0.video.isSome = true → ∀ s ∈ s0 :: rest, s.video.isSome = true) :
    ∃ out, audioVideoSpeechCollate zB ((s0 :: rest).map MSample.toRow) padId =
        Except.ok out ∧
      out.tokens = (s0 :: rest).map (fun s => s.toks ++
        List.replicate
          (pymax ((s0 :: rest).map (fun u => u.toks.length)) - s.toks.length) padId) ∧
      ∀ s ∈ s0 :: rest,
        s.toks.length = pymax ((s0 :: rest).map (fun u => u.toks.length)) →
        s.toks ++ List.replicate
          (pymax ((s0 :: rest).map (fun u => u.toks.length)) - s.toks.length) padId =
          s.toks := by
  refine ⟨_, collate_structured zB padId s0 rest hA hV, rfl, ?_⟩
  intro s _ hmax
  rw [hmax]
  simp

/-- Closed witness for `collate_token_rows_padded`. -/
theorem collate_token_rows_padded_witness :
    ∃ out, audioVideoSpeechCollate (0 : Int)
        (([(⟨some [1], some [9], [3], Option.none⟩ : MSample Int),
          ⟨some [7], some [8], [4, 5], Option.none⟩]).map MSample.toRow) (-1) =
      Except.ok out ∧
      out.tokens = ([(⟨some [1], some [9], [3], Option.none⟩ : MSample Int),
          ⟨some [7], some [8], [4, 5], Option.none⟩]).map (fun s => s.toks ++
        List.replicate
          (pymax (([(⟨some [1], some [9], [3], Option.none⟩ : MSample Int),
            ⟨some [7], some [8], [4, 5], Option.none⟩]).map (fun u => u.toks.length)) -
              s.toks.length) (-1)) ∧
      ∀ s ∈ [(⟨some [1], some [9], [3], Option.none⟩ : MSample Int),
          ⟨some [7], some [8], [4, 5], Option.none⟩],
        s.toks.length = pymax (([(⟨some [1], some [9], [3], Option.none⟩ : MSample Int),
            ⟨some [7], some [8], [4, 5], Option.none⟩]).map (fun u => u.toks.length)) →
        s.toks ++ List.replicate
          (pymax (([(⟨some [1], some [9], [3], Option.none⟩ : MSample Int),
            ⟨some [7], some [8], [4, 5], Option.none⟩]).map (fun u => u.toks.length)) -
              s.toks.length) (-1) = s.toks :=
  collate_token_rows_padded 0 (-1) ⟨some [1], some [9], [3], Option.none⟩
    [⟨some [7], some [8], [4, 5], Option.none⟩]
    (fun _ => by decide) (fun _ => by decide)

/-- C9: on a non-empty batch the collate function raises the
input-validation `ValueError` exactly when the transposed batch has
neither 6 nor 7 component sequences; for batches of 6- or 7-element
sample tuples that error is never raised. -/
theorem collate_arity_validation {β : Type} (zB : β) (padId : Int)
    (batch : List (List (Val β))) (hne : batch ≠ []) :
    ((∀ b ∈ batch, b.length = 6 ∨ b.length = 7) →
      audioVideoSpeechCollate zB batch padId ≠ Except.error collateArityError) ∧
    (audioVideoSpeechCollate zB batch padId = Except.error collateArityError ↔
      (pyZip batch).length ≠ 6 ∧ (pyZip batch).length ≠ 7) := by
  have hlen67 : (∀ b ∈ batch, b.length = 6 ∨ b.length = 7) →
      (pyZip batch).length = 6 ∨ (pyZip batch).length = 7 := by
    intro hall
    have hge : 6 ≤ (pyZip batch).length :=
      pyZip_length_ge 6 batch hne (fun r hr => by rcases hall r hr with h | h <;> omega)
    obtain ⟨b0, hb0⟩ : ∃ b0, b0 ∈ batch := by
      cases batch with
      | nil => exact absurd rfl hne
      | cons x xs => exact ⟨x, by simp⟩
    have hle : (pyZip batch).length ≤ b0.length := pyZip_length_le b0 batch hb0
    rcases hall b0 hb0 with h | h <;> omega
  rcases hp : pyZip batch with _ |
    ⟨c0, _ | ⟨c1, _ | ⟨c2, _ | ⟨c3, _ | ⟨c4, _ | ⟨c5, _ | ⟨c6, _ | ⟨c7, tl⟩⟩⟩⟩⟩⟩⟩⟩
  case nil =>
    have heq : audioVideoSpeechCollate zB batch padId = Except.error collateArityError := by
      unfold audioVideoSpeechCollate
      rw [hp]
    refine ⟨fun hall => ?_, ?_⟩
    · rcases hlen67 hall with h | h <;> rw [hp] at h <;> simp at h
    · rw [heq]
      simp
  case cons.nil =>
    have heq : audioVideoSpeechCollate zB batch padId = Except.error collateArityError := by
      unfold audioVideoSpeechCollate
      rw [hp]
    refine ⟨fun hall => ?_, ?_⟩
    · rcases hlen67 hall with h | h <;> rw [hp] at h <;> simp at h
    · rw [heq]
      simp
  case cons.cons.nil =>
    have heq : audioVideoSpeechCollate zB batch padId = Except.error collateArityError := by
      unfold audioVideoSpeechCollate
      rw [hp]
    refine ⟨fun hall => ?_, ?_⟩
    · rcases hlen67 hall with h | h <;> rw [hp] at h <;> simp at h
    · rw [heq]
      simp
  case cons.cons.cons.nil =>
    have heq : audioVideoSpeechCollate zB batch padId = Except.error collateArityError := by
      unfold audioVideoSpeechCollate
      rw [hp]
    refine ⟨fun hall => ?_, ?_⟩
    · rcases hlen67 hall with h | h <;> rw [hp] at h <;> simp at h
    · rw [heq]
      simp
  case cons.cons.cons.cons.nil =>
    have heq : audioVideoSpeechCollate zB batch padId = Except.error collateArityError := by
      unfold audioVideoSpeechCollate
      rw [hp]
    refine ⟨fun hall => ?_, ?_⟩
    · rcases hlen67 hall with h | h <;> rw [hp] at h <;> simp at h
    · rw [heq]
      simp
  case cons.cons.cons.cons.cons.nil =>
    have heq : audioVideoSpeechCollate zB batch padId = Except.error collateArityError := by
      unfold audioVideoSpeechCollate
      rw [hp]
    refine ⟨fun hall => ?_, ?_⟩
    · rcases hlen67 hall with h | h <;> rw [hp] at h <;> simp at h
    · rw [heq]
      simp
  case cons.cons.cons.cons.cons.cons.nil =>
    -- exactly six transposed components
    have heq : audioVideoSpeechCollate zB batch padId =
        collateCore zB padId batch c1 c3 c5 Option.none := by
      unfold audioVideoSpeechCollate
      rw [hp]
    refine ⟨fun _ => ?_, ?_⟩
    · rw [heq]
      exact collateCore_ne_arity zB padId batch c1 c3 c5 Option.none
    · rw [heq]
      constructor
      · intro h
        exact absurd h (collateCore_ne_arity zB padId batch c1 c3 c5 Option.none)
      · intro h
        exact absurd rfl h.1
  case cons.cons.cons.cons.cons.cons.cons.nil =>
    -- exactly seven transposed components
    have heq : audioVideoSpeechCollate zB batch padId =
        collateCore zB padId batch c1 c3 c5 (some c6) := by
      unfold audioVideoSpeechCollate
      rw [hp]
    refine ⟨fun _ => ?_, ?_⟩
    · rw [heq]
      exact collateCore_ne_arity zB padId batch c1 c3 c5 (some c6)
    · rw [heq]
      constructor
      · intro h
        exact absurd h (collateCore_ne_arity zB padId batch c1 c3 c5 (some c6))
      · intro h
        exact absurd rfl h.2
  case cons.cons.cons.cons.cons.cons.cons.cons =>
    -- eight or more transposed components
    have heq : audioVideoSpeechCollate zB batch padId = Except.error collateArityError := by
      unfold audioVideoSpeechCollate
      rw [hp]
    refine ⟨fun hall => ?_, ?_⟩
    · rcases hlen67 hall with h | h <;> rw [hp] at h <;>
        simp only [List.length_cons] at h <;> omega
    · rw [heq]
      refine ⟨fun _ => ⟨?_, ?_⟩, fun _ => rfl⟩ <;>
        simp only [List.length_cons] <;> omega

/-- Closed witness for `collate_arity_validation`: a one-element batch
whose sample tuple has 1 element is rejected with the validation
error. -/
theorem collate_arity_validation_witness :
    audioVideoSpeechCollate (0 : Int) [[Val.nat 1]] (-1) =
      Except.error collateArityError := by
  have h1 : pyZip ([[Val.nat 1]] : List (List (Val Int))) = [[Val.nat 1]] := by
    rw [pyZip]
    rw [pyZip]
    rfl
  refine (collate_arity_validation 0 (-1) [[Val.nat 1]] (by simp)).2.mpr ?_
  rw [h1]
  simp

/-- C10: the presence of the audio and video modalities in the collate
output is decided solely by the first sample: a `None` first audio
length yields `None` audio outputs regardless of the remaining samples
(which may well carry audio), and likewise for video; no uniformity
check is performed. -/
theorem collate_presence_first_sample {β : Type} (zB : β) (padId : Int)
    (s0 : MSample β) (rest : List (MSample β))
    (hA : s0.audio.isSome = true → ∀ s ∈ s0 :: rest, s.audio.isSome = true)
    (hV : s0.video.isSome = true → ∀ s ∈ s0 :: rest, s.video.isSome = true) :
    ∃ out, audioVideoSpeechCollate zB ((s0 :: rest).map MSample.toRow) padId =
        Except.ok out ∧
      (s0.audio = Option.none →
        out.audio_signal = Option.none ∧ out.audio_lengths = Option.none) ∧
      (s0.video = Option.none →
        out.video_signal = Option.none ∧ out.video_lengths = Option.none) := by
  refine ⟨_, collate_structured zB padId s0 rest hA hV, ?_, ?_⟩
  · intro h0
    constructor <;> simp [h0]
  · intro h0
    constructor <;> simp [h0]

/-- Closed witness for `collate_presence_first_sample`: the first
sample has no audio while the second does, yet the output audio fields
are `None` and no error is raised. -/
theorem collate_presence_first_sample_witness :
    ∃ out, audioVideoSpeechCollate (0 : Int)
        (([(⟨Option.none, some [9], [3], Option.none⟩ : MSample Int),
          ⟨some [7], some [8], [4, 5], Option.none⟩]).map MSample.toRow) (-1) =
      Except.ok out ∧
      ((⟨Option.none, some [9], [3], Option.none⟩ : MSample Int).audio = Option.none →
        out.audio_signal = Option.none ∧ out.audio_lengths = Option.none) ∧
      ((⟨Option.none, some [9], [3], Option.none⟩ : MSample Int).video = Option.none →
        out.video_signal = Option.none ∧ out.video_lengths = Option.none) :=
  collate_presence_first_sample 0 (-1) ⟨Option.none, some [9], [3], Option.none⟩
    [⟨some [7], some [8], [4, 5], Option.none⟩]
    (fun h => by cases h) (fun _ => by decide)

end AVSpeech